import Mathlib

/-
Shallow embedding of the string-schema parser and IR compiler of the
`string-schema` repository (src/string_schema/parsing/string_parser.py and
src/string_schema/core/fields.py), together with proofs settling the frozen
claims about it.

Conventions of the embedding:
* Python text is modelled as `List Char` (`Str`); Python dynamic values as the
  inductive `Py` (dicts are insertion-ordered association lists, matching
  CPython dict semantics).
* Python floats are modelled as exact rationals (`Rat`); every float literal
  occurring in a settled claim is dyadic-exact, so no rounding questions arise.
* Fallible Python code (a `TypeError` from unexpected keyword arguments, a
  `RecursionError` from exhausting the interpreter stack) is modelled with
  `Except String`; recursion over input fragments carries explicit fuel, with
  fuel exhaustion playing the role of Python's `RecursionError`.  All claims
  are either independent of the fuel value or are settled on inputs whose
  recursion depth is far below the supplied fuel.
* `str.lower()` is modelled on the ASCII range, which covers every token the
  canonicalization table and the claims mention.
-/

namespace StringSchema

/-- Python character sequences (`str` values under manipulation). -/
abbrev Str := List Char

/-- Dynamic Python values as they occur in the parser: strings, ints, floats
(modelled as exact rationals), booleans, `None`, lists and insertion-ordered
dicts. -/
inductive Py where
  | none : Py
  | str (s : String) : Py
  | int (i : Int) : Py
  | float (q : Rat) : Py
  | bool (b : Bool) : Py
  | list (xs : List Py) : Py
  | dict (kvs : List (String × Py)) : Py

/-- Python `v is None`. -/
def Py.isNone : Py → Bool
  | .none => true
  | _ => false

/-- Python `v == lit` for a string literal `lit` (equality of a dynamic value
with a string is `False` unless the value is that string). -/
def pyEqStr (v : Py) (lit : String) : Bool :=
  match v with
  | .str t => t = lit
  | _ => false

/-- CPython dict assignment `d[k] = v`: updates the value in place if the key
exists (keeping its position), else appends the pair. -/
def setKey : List (String × Py) → String → Py → List (String × Py)
  | [], k, v => [(k, v)]
  | (k', v') :: rest, k, v =>
    if k' = k then (k, v) :: rest else (k', v') :: setKey rest k v

/-- Dict lookup `d.get(k)`. -/
def lookupKey (k : String) : List (String × Py) → Option Py
  | [] => Option.none
  | (k', v) :: rest => if k' = k then some v else lookupKey k rest

/-- Python `k in d`. -/
def hasKey (k : String) (kvs : List (String × Py)) : Bool :=
  (lookupKey k kvs).isSome

/-- Python truthiness of a dynamic value. -/
def Py.truthy : Py → Bool
  | .none => false
  | .str s => !(s.isEmpty)
  | .int i => i != 0
  | .float q => q != 0
  | .bool b => b
  | .list xs => !(xs.isEmpty)
  | .dict kvs => !(kvs.isEmpty)

/-- Python `len(v)` for sized values (`None` for unsized ones, where CPython
raises `TypeError`). -/
def pyLen : Py → Option Nat
  | .str s => some s.length
  | .list xs => some xs.length
  | .dict kvs => some kvs.length
  | _ => Option.none

/-- Python iteration `for x in v` for strings (yielding one-character strings)
and lists. -/
def pyIter : Py → Option (List Py)
  | .str s => some (s.data.map fun c => Py.str (String.mk [c]))
  | .list xs => some xs
  | _ => Option.none

/-! ### Python string primitives -/

/-- The whitespace characters stripped by Python `str.strip()` (ASCII part). -/
def isPySpace (c : Char) : Bool :=
  c = ' ' || c = '\t' || c = '\n' || c = '\r' || c = '\x0b' || c = '\x0c'

/-- Model of `str.lstrip()`. -/
def stripL (l : Str) : Str := l.dropWhile isPySpace

/-- Model of `str.rstrip()`. -/
def stripR (l : Str) : Str := (stripL l.reverse).reverse

/-- Model of `str.strip()`. -/
def pyStrip (l : Str) : Str := stripR (stripL l)

/-- Model of `str.rstrip(',')`: drop trailing commas. -/
def rstripComma (l : Str) : Str :=
  ((l.reverse.dropWhile fun c => c = ',').reverse)

/-- Model of `hay.startswith(pre)`. -/
def strStartsWith : Str → Str → Bool
  | _, [] => true
  | [], _ :: _ => false
  | c :: cs, p :: ps => c = p && strStartsWith cs ps

/-- Model of `hay.endswith(suf)`. -/
def strEndsWith (hay suf : Str) : Bool :=
  strStartsWith hay.reverse suf.reverse

/-- Python `needle in hay` for a character. -/
def containsChar (c : Char) (l : Str) : Bool := l.any fun x => x = c

/-- Python `needle in hay` for a substring. -/
def containsSub (needle : Str) : Str → Bool
  | [] => needle.isEmpty
  | c :: rest => strStartsWith (c :: rest) needle || containsSub needle rest

/-- Model of `s.split(sep)` on a single character separator; Python returns `[""]` on
the empty string and keeps empty segments. -/
def splitOnChar (c : Char) : Str → List Str
  | [] => [[]]
  | x :: xs =>
    if x = c then [] :: splitOnChar c xs
    else
      match splitOnChar c xs with
      | r :: rs => (x :: r) :: rs
      | [] => [[x]]

/-- Model of `s.split(c, 1)`: the part before the first occurrence, and the remainder
after it when the separator occurs. -/
def split1 (c : Char) : Str → Str × Option Str
  | [] => ([], Option.none)
  | x :: xs =>
    if x = c then ([], some xs)
    else
      let (a, b) := split1 c xs
      (x :: a, b)

/-- Model of `s.split(sep)[0]` for a multi-character separator: the part before the
first occurrence (the whole string when the separator is absent). -/
def beforeSub (sep : Str) : Str → Str
  | [] => []
  | c :: rest =>
    if strStartsWith (c :: rest) sep then []
    else c :: beforeSub sep rest

/-- Model of `", ".join(parts)` and friends. -/
def joinWith (sep : Str) : List Str → Str
  | [] => []
  | [x] => x
  | x :: y :: rest => x ++ sep ++ joinWith sep (y :: rest)

/-- ASCII `str.lower()` on a character. -/
def lowerChar (c : Char) : Char :=
  if 'A' ≤ c && c ≤ 'Z' then Char.ofNat (c.toNat + 32) else c

/-- ASCII `str.lower()`. -/
def lowerStr (l : Str) : Str := l.map lowerChar

/-- ASCII `str.lower()` packaged on `String`. -/
def pyLower (s : String) : String := String.mk (lowerStr s.data)

/-- A digit character. -/
def isDigitChar (c : Char) : Bool := '0' ≤ c && c ≤ '9'

/-- Value of a digit run. -/
def digitsVal (l : Str) : Nat :=
  l.foldl (fun acc c => acc * 10 + (c.toNat - '0'.toNat)) 0

/-- Digit groups separated by single underscores, as accepted inside Python
numeric literals: `1`, `1_000` are fine, `_1`, `1__0`, `1_` are not.  Returns
the digits with underscores removed. -/
def digitGroups : Str → Option Str
  | [] => Option.none
  | l =>
    let rec go : Str → Bool → Bool → Option Str
      | [], sawDigit, lastDigit =>
        if sawDigit && lastDigit then some [] else Option.none
      | c :: rest, sawDigit, lastDigit =>
        if isDigitChar c then
          (go rest true true).map fun ds => c :: ds
        else if c = '_' then
          if lastDigit then go rest sawDigit false else Option.none
        else Option.none
    go l false true

/-- Python `int(s)`: optional surrounding whitespace, optional sign, a run of
digits with optional single underscore separators.  `None` models the
`ValueError` branch. -/
def pyInt (s : Str) : Option Int :=
  let t := pyStrip s
  match t with
  | '+' :: rest => (digitGroups rest).map fun ds => (digitsVal ds : Int)
  | '-' :: rest => (digitGroups rest).map fun ds => -(digitsVal ds : Int)
  | rest => (digitGroups rest).map fun ds => (digitsVal ds : Int)

/-- Decimal body `intpart.fracpart` with at least one digit overall; the
exact value is returned as a numerator and a power-of-ten denominator. -/
def decimalBodyParts (l : Str) : Option (Int × Nat) :=
  let ip := l.takeWhile fun c => c ≠ '.'
  let rest := l.dropWhile fun c => c ≠ '.'
  match rest with
  | '.' :: fp =>
    if ip.isEmpty && fp.isEmpty then Option.none
    else if (ip.isEmpty || (digitGroups ip).isSome)
        && (fp.isEmpty || (digitGroups fp).isSome) then
      let ids := ((digitGroups ip).getD [])
      let fds := ((digitGroups fp).getD [])
      some (Int.ofNat (digitsVal ids * 10 ^ fds.length + digitsVal fds),
        10 ^ fds.length)
    else Option.none
  | _ => (digitGroups l).map fun ds => (Int.ofNat (digitsVal ds), 1)

/-- Python `float(s)` restricted to finite decimal literals with an optional
exponent (the only shapes reachable in this code base: the callers only
invoke `float` on strings containing `'.'`).  The value is the exact
rational, built with `mkRat` so that it evaluates definitionally. -/
def pyFloat (s : Str) : Option Rat :=
  let t := pyStrip s
  let (sgn, body) :=
    match t with
    | '+' :: rest => ((1 : Int), rest)
    | '-' :: rest => ((-1 : Int), rest)
    | rest => ((1 : Int), rest)
  let mant := body.takeWhile fun c => c ≠ 'e' && c ≠ 'E'
  let expPart := body.dropWhile fun c => c ≠ 'e' && c ≠ 'E'
  match expPart with
  | [] => (decimalBodyParts mant).map fun nd => mkRat (sgn * nd.1) nd.2
  | _ :: etext =>
    match decimalBodyParts mant, pyInt etext with
    | some nd, some e =>
      if 0 ≤ e then
        some (mkRat (sgn * nd.1 * Int.ofNat (10 ^ e.toNat)) nd.2)
      else
        some (mkRat (sgn * nd.1) (nd.2 * 10 ^ (-e).toNat))
    | _, _ => Option.none

/-! ### Anchored regular-expression matchers

The parser uses four anchored regexes; each character class below excludes the
character that terminates it, so the greedy matches are forced and the regexes
reduce to the following first-occurrence scans. -/

/-- A `\w` character (ASCII reading): letters, digits, underscore. -/
def isWordChar (c : Char) : Bool :=
  ('a' ≤ c && c ≤ 'z') || ('A' ≤ c && c ≤ 'Z') || isDigitChar c || c = '_'

/-- Model of `re.match(r'^(\w+)\(([^)]+)\)$', s)`: `some (base, args)` on success. -/
def matchTypeConstraint (s : Str) : Option (Str × Str) :=
  let w := s.takeWhile isWordChar
  let rest := s.dropWhile isWordChar
  if w.isEmpty then Option.none
  else
    match rest with
    | '(' :: r2 =>
      let g2 := r2.takeWhile fun c => c ≠ ')'
      let r3 := r2.dropWhile fun c => c ≠ ')'
      if g2.isEmpty then Option.none
      else
        match r3 with
        | [')'] => some (w, g2)
        | _ => Option.none
    | _ => Option.none

/-- Model of `re.match(r'^\[([^\]]+)\]\(([^)]+)\)$', s)`: `some (interior, args)`. -/
def matchArrayConstraint (s : Str) : Option (Str × Str) :=
  match s with
  | '[' :: r1 =>
    let g1 := r1.takeWhile fun c => c ≠ ']'
    let r2 := r1.dropWhile fun c => c ≠ ']'
    if g1.isEmpty then Option.none
    else
      match r2 with
      | ']' :: '(' :: r3 =>
        let g2 := r3.takeWhile fun c => c ≠ ')'
        let r4 := r3.dropWhile fun c => c ≠ ')'
        if g2.isEmpty then Option.none
        else
          match r4 with
          | [')'] => some (g1, g2)
          | _ => Option.none
      | _ => Option.none
  | _ => Option.none

/-- Interior of `kw(...)` when `s` is exactly `kw(<nonempty, ')'-free>)`. -/
def matchKwParen (kw : Str) (s : Str) : Option Str :=
  if strStartsWith s (kw ++ ['(']) then
    let r := s.drop (kw.length + 1)
    let g := r.takeWhile fun c => c ≠ ')'
    let rest := r.dropWhile fun c => c ≠ ')'
    if g.isEmpty then Option.none
    else
      match rest with
      | [')'] => some g
      | _ => Option.none
  else Option.none

/-- Model of `re.match(r'^(?:enum|choice|select)\(([^)]+)\)$', s)`. -/
def matchEnumWrapper (s : Str) : Option Str :=
  match matchKwParen "enum".data s with
  | some g => some g
  | Option.none =>
    match matchKwParen "choice".data s with
    | some g => some g
    | Option.none => matchKwParen "select".data s

/-- Model of `re.match(r'^(?:array|list)\(([^)]+)\)$', s)`. -/
def matchArrayListWrapper (s : Str) : Option Str :=
  match matchKwParen "array".data s with
  | some g => some g
  | Option.none => matchKwParen "list".data s

/-- Model of `re.sub(r'^[\'\"]{3}|[\'\"]{3}$', '', s)` on an already-stripped string:
remove a leading run of three quote characters and, scanning on past it, a
trailing run of three. -/
def subTripleQuotes (s : Str) : Str :=
  let isQ : Char → Bool := fun c => c = '\'' || c = '"'
  if (s.take 3).length = 3 && (s.take 3).all isQ then
    let rest := s.drop 3
    if 3 ≤ rest.length && ((rest.drop (rest.length - 3)).all isQ) then
      rest.take (rest.length - 3)
    else rest
  else if 3 ≤ s.length && ((s.drop (s.length - 3)).all isQ) then
    s.take (s.length - 3)
  else s

/-! ### Type/constraint lexemes (`string_parser.py`) -/

/-- Model of `_is_simple_type`: case-insensitive membership in the fixed vocabulary. -/
def is_simple_type (type_str : Str) : Bool :=
  let t := String.mk (lowerStr (pyStrip type_str))
  [ "string", "str", "text", "int", "integer", "number", "float", "decimal",
    "bool", "boolean", "email", "url", "uri", "datetime", "date", "uuid",
    "phone" ].any fun x => x = t

/-- The canonicalization table of `_normalize_type_name`. -/
def type_mapping : List (String × String) :=
  [ ("str", "string"), ("string", "string"), ("text", "string"),
    ("int", "integer"), ("integer", "integer"),
    ("num", "number"), ("number", "number"), ("float", "number"),
    ("double", "number"), ("decimal", "number"),
    ("bool", "boolean"), ("boolean", "boolean"),
    ("email", "string"), ("url", "string"), ("uri", "string"),
    ("datetime", "string"), ("date", "string"), ("uuid", "string"),
    ("phone", "string"), ("tel", "string"), ("null", "null") ]

/-- Association-list lookup used for the table. -/
def tableLookup (k : String) : List (String × String) → Option String
  | [] => Option.none
  | (k', v) :: rest => if k' = k then some v else tableLookup k rest

/-- Model of `_normalize_type_name`: case-insensitive table lookup, defaulting to
`"string"`. -/
def normalize_type_name (type_name : String) : String :=
  (tableLookup (pyLower type_name) type_mapping).getD "string"

/-- Model of `Str`-level convenience wrapper for the parser internals. -/
def normalizeTypeNameL (l : Str) : String := normalize_type_name (String.mk l)

/-- Model of `_parse_array_constraints`: parse `'min=1,max=5'`; `min`/`max` values are
int-coerced, other keys keep their string value, a failing int coercion drops
the pair. -/
def parse_array_constraints (constraint_str : Str) : List (String × Py) :=
  let parts := (splitOnChar ',' constraint_str).map pyStrip
  parts.foldl
    (fun constraints part =>
      if containsChar '=' part then
        match split1 '=' part with
        | (key, some value) =>
          let key := pyStrip key
          let value := pyStrip value
          if key = "min".data || key = "max".data then
            match pyInt value with
            | some n => setKey constraints (String.mk key) (Py.int n)
            | Option.none => constraints
          else setKey constraints (String.mk key) (Py.str (String.mk value))
        | (_, Option.none) => constraints
      else constraints)
    []

/-- Model of `_parse_enum_values`: values of `enum(v1,v2,...)` (and `choice`/`select`),
or `[]` when the anchored wrapper pattern does not match. -/
def parse_enum_values (enum_def : Str) : List Py :=
  match matchEnumWrapper enum_def with
  | Option.none => []
  | some values_str =>
    ((splitOnChar ',' values_str).map pyStrip).map fun v => Py.str (String.mk v)

/-- Model of `_parse_array_type_definition`: parse `array(type,constraints)` /
`list(type,constraints)` into the normalized item type and the constraints. -/
def parse_array_type_definition (array_def : Str) :
    String × List (String × Py) :=
  match matchArrayListWrapper array_def with
  | Option.none => ("string", [])
  | some content =>
    let parts := (splitOnChar ',' content).map pyStrip
    let array_type :=
      match parts with
      | [] => "string"
      | p :: _ => normalizeTypeNameL p
    let constraints :=
      (parts.drop 1).foldl
        (fun constraints part =>
          if containsChar '=' part then
            match split1 '=' part with
            | (key, some value) =>
              let key := pyStrip key
              let value := pyStrip value
              if key = "min".data || key = "max".data then
                match pyInt value with
                | some n => setKey constraints (String.mk key) (Py.int n)
                | Option.none => constraints
              else setKey constraints (String.mk key) (Py.str (String.mk value))
            | (_, Option.none) => constraints
          else constraints)
        []
    (array_type, constraints)

/-- Coercion used by `_parse_type_definition`:
`float(value) if '.' in value else int(value)`, `None` on `ValueError`. -/
def coerceNum (value : Str) : Option Py :=
  if containsChar '.' value then (pyFloat value).map Py.float
  else (pyInt value).map Py.int

/-- Model of `_parse_type_definition`: split a type spec `base(constraints)` into the
normalized base type and a constraints dict.  Two unnamed arguments are
positional `(min,max)`; named `min`/`max` keys are type-directed
(`min_length`/`max_length` with `int` coercion for the string family,
`min_val`/`max_val` with `int`-or-`float` coercion otherwise); other named
keys keep their string value; a bare value is treated as a max.  Failing
coercions drop the offending pair. -/
def parse_type_definition (type_def : Str) : String × List (String × Py) :=
  match matchTypeConstraint type_def with
  | Option.none => (normalizeTypeNameL type_def, [])
  | some (base_type, constraint_str) =>
    let constraint_parts := (splitOnChar ',' constraint_str).map pyStrip
    let isStringFamily :=
      base_type = "string".data || base_type = "str".data
        || base_type = "text".data
    let constraints :=
      if constraint_parts.length = 2
          && constraint_parts.all (fun part => !(containsChar '=' part)) then
        match constraint_parts with
        | [p0, p1] =>
          match coerceNum p0, coerceNum p1 with
          | some min_val, some max_val =>
            if isStringFamily then
              [("min_length", min_val), ("max_length", max_val)]
            else
              [("min_val", min_val), ("max_val", max_val)]
          | _, _ => []
        | _ => []
      else
        constraint_parts.foldl
          (fun constraints part =>
            if containsChar '=' part then
              match split1 '=' part with
              | (key, some value) =>
                let key := pyStrip key
                let value := pyStrip value
                if key = "min".data || key = "max".data then
                  if isStringFamily then
                    match pyInt value with
                    | some n =>
                      setKey constraints (String.mk (key ++ "_length".data))
                        (Py.int n)
                    | Option.none => constraints
                  else
                    match coerceNum value with
                    | some v =>
                      setKey constraints (String.mk (key ++ "_val".data)) v
                    | Option.none => constraints
                else
                  setKey constraints (String.mk key) (Py.str (String.mk value))
              | (_, Option.none) => constraints
            else
              if isStringFamily then
                match pyInt part with
                | some n => setKey constraints "max_length" (Py.int n)
                | Option.none => constraints
              else
                match coerceNum part with
                | some v => setKey constraints "max_val" v
                | Option.none => constraints)
          []
    (normalizeTypeNameL base_type, constraints)

/-! ### `SimpleField` (core/fields.py) -/

/-- Model of `SimpleField.__init__`'s attributes.  Values are dynamic (`Py`) because
the parser forwards raw parsed constraint values — which can be strings —
into these slots via `**constraints`. -/
structure SimpleField where
  field_type : Py
  description : Py := Py.str ""
  required : Py := Py.bool true
  default : Py := Py.none
  min_val : Py := Py.none
  max_val : Py := Py.none
  min_length : Py := Py.none
  max_length : Py := Py.none
  choices : Py := Py.none
  min_items : Py := Py.none
  max_items : Py := Py.none
  format_hint : Py := Py.none
  union_types : Py := Py.none

/-- Model of `SimpleField(field_type, required=required)` with no further arguments
(`__init__` replaces a falsy `union_types` argument by `[]`). -/
def mkSimpleField (field_type : Py) (required : Py) : SimpleField :=
  { field_type := field_type, required := required, union_types := Py.list [] }

/-- Assign one keyword argument of `SimpleField.__init__`; an unknown name is
CPython's `TypeError: unexpected keyword argument`, and `field_type` /
`required` would collide with the positionally-passed arguments. -/
def applyKwarg (f : SimpleField) (key : String) (v : Py) :
    Except String SimpleField :=
  if key = "field_type" || key = "required" then
    .error ("TypeError: got multiple values for argument " ++ key)
  else if key = "description" then pure { f with description := v }
  else if key = "default" then pure { f with default := v }
  else if key = "min_val" then pure { f with min_val := v }
  else if key = "max_val" then pure { f with max_val := v }
  else if key = "min_length" then pure { f with min_length := v }
  else if key = "max_length" then pure { f with max_length := v }
  else if key = "choices" then pure { f with choices := v }
  else if key = "min_items" then pure { f with min_items := v }
  else if key = "max_items" then pure { f with max_items := v }
  else if key = "format_hint" then pure { f with format_hint := v }
  else if key = "union_types" then pure { f with union_types := v }
  else .error ("TypeError: unexpected keyword argument " ++ key)

/-- Model of `SimpleField(field_type=.., required=.., **constraints)`: apply the
keyword arguments, then `__init__`'s `self.union_types = union_types or []`. -/
def mkSimpleFieldKw (field_type : Py) (required : Py)
    (kwargs : List (String × Py)) : Except String SimpleField := do
  let f ← kwargs.foldlM (fun f kv => applyKwarg f kv.1 kv.2)
    ({ field_type := field_type, required := required } : SimpleField)
  pure { f with
    union_types := if f.union_types.truthy then f.union_types else Py.list [] }

/-! ### Parsed structures (the dict trees built by `_parse_schema_structure`)

The parser only ever builds dicts with `"type"` equal to `"object"` or
`"array"`; the tree shape is captured by the inductives below.  The optional
`required` slot models the `'required'` key that
`_parse_single_field_with_nesting` adds to nested structures. -/

mutual

inductive PItems where
  | simple (simple_type : String) (original_type : Option String) : PItems
  | struct (st : PStruct) : PItems

inductive PStruct where
  | object (fields : List (String × FieldDef)) (required : Option Bool) : PStruct
  | array (items : PItems) (constraints : List (String × Py))
      (required : Option Bool) : PStruct

inductive FieldDef where
  | field (f : SimpleField) : FieldDef
  | struct (st : PStruct) : FieldDef

end

/-- Model of `nested_structure['required'] = required`. -/
def PStruct.setRequired : PStruct → Bool → PStruct
  | .object fs _, r => .object fs (some r)
  | .array it cs _, r => .array it cs (some r)

/-- The `'required'` entry of a structure dict, `.get('required', True)`
style. -/
def PStruct.requiredTag : PStruct → Option Bool
  | .object _ r => r
  | .array _ _ r => r

/-- Dict assignment for the parsed-fields dict (same semantics as `setKey`). -/
def setKeyFD : List (String × FieldDef) → String → FieldDef →
    List (String × FieldDef)
  | [], k, v => [(k, v)]
  | (k', v') :: rest, k, v =>
    if k' = k then (k, v) :: rest else (k', v') :: setKeyFD rest k v

/-! ### Tokenizer / normalizer -/

/-- Model of `_split_field_definitions_with_nesting`: split on commas at zero
bracket/brace/paren depth (counters may go negative on unbalanced input,
blocking splits, exactly as in the source).  Parts are stripped and empty
parts dropped. -/
def splitFieldsGo : Str → Str → Int → Int → Int → List Str → List Str
  | [], current_part, _, _, _, parts =>
    if (pyStrip current_part).isEmpty then parts.reverse
    else (parts.reverse) ++ [pyStrip current_part]
  | c :: rest, current_part, bracket_depth, brace_depth, paren_depth, parts =>
    if c = '[' then
      splitFieldsGo rest (current_part ++ [c]) (bracket_depth + 1) brace_depth
        paren_depth parts
    else if c = ']' then
      splitFieldsGo rest (current_part ++ [c]) (bracket_depth - 1) brace_depth
        paren_depth parts
    else if c = '{' then
      splitFieldsGo rest (current_part ++ [c]) bracket_depth (brace_depth + 1)
        paren_depth parts
    else if c = '}' then
      splitFieldsGo rest (current_part ++ [c]) bracket_depth (brace_depth - 1)
        paren_depth parts
    else if c = '(' then
      splitFieldsGo rest (current_part ++ [c]) bracket_depth brace_depth
        (paren_depth + 1) parts
    else if c = ')' then
      splitFieldsGo rest (current_part ++ [c]) bracket_depth brace_depth
        (paren_depth - 1) parts
    else if c = ',' && bracket_depth = 0 && brace_depth = 0
        && paren_depth = 0 then
      if (pyStrip current_part).isEmpty then
        splitFieldsGo rest [] bracket_depth brace_depth paren_depth parts
      else
        splitFieldsGo rest [] bracket_depth brace_depth paren_depth
          (pyStrip current_part :: parts)
    else
      splitFieldsGo rest (current_part ++ [c]) bracket_depth brace_depth
        paren_depth parts

/-- Model of `_split_field_definitions_with_nesting` entry point. -/
def split_field_definitions_with_nesting (schema_str : Str) : List Str :=
  splitFieldsGo schema_str [] 0 0 0 []

/-- One line of `_normalize_string_schema`'s loop: strip, drop blank and
full-comment lines, cut inline comments. -/
def normalizeLine (line₀ : Str) : Option Str :=
  let line := pyStrip line₀
  if line.isEmpty || strStartsWith line "#".data then Option.none
  else if containsSub " #".data line then
    some (pyStrip (beforeSub " #".data line))
  else if containsChar '#' line && !(strStartsWith line "#".data) then
    some (pyStrip (beforeSub "#".data line))
  else some line

/-- Model of `_normalize_string_schema`: strip, remove triple quotes, process each line
(comment removal), join the surviving lines with `", "` after right-stripping
commas. -/
def normalize_string_schema (schema_str : Str) : Str :=
  let s := subTripleQuotes (pyStrip schema_str)
  let lines := splitOnChar '\n' s
  let normalized_parts := lines.filterMap normalizeLine
  joinWith ", ".data (normalized_parts.map rstripComma)

/-! ### The structure parser (`_parse_schema_structure` and friends)

The recursion is fuelled; running out of fuel models CPython's
`RecursionError`.  Every procedure decrements the fuel on entry (so that the
recursion is structural, and in particular computes definitionally); the
top-level entry point supplies far more fuel than any input of interest
consumes. -/

mutual

/-- Model of `_parse_schema_structure`: classify a schema string as `{...}` object,
`[...]` array (with optional `(constraints)` suffix, falling back to an empty
object structure when malformed), or a bare field list. -/
def parse_schema_structure : Nat → Str → Except String PStruct
  | 0, _ => .error "RecursionError: maximum recursion depth exceeded"
  | fuel + 1, schema_str₀ =>
    let schema_str := pyStrip schema_str₀
    if strStartsWith schema_str "\x7b".data && strEndsWith schema_str "\x7d".data then
      do
        let inner := pyStrip ((schema_str.drop 1).dropLast)
        let fields ← parse_object_fields fuel inner
        pure (.object fields Option.none)
    else if strStartsWith schema_str "[".data then
      match matchArrayConstraint schema_str with
      | some (g1, g2) =>
        let inner_content := pyStrip g1
        let constraint_str := pyStrip g2
        parse_array_interior fuel inner_content
          (parse_array_constraints constraint_str)
      | Option.none =>
        if strEndsWith schema_str "]".data then
          parse_array_interior fuel (pyStrip ((schema_str.drop 1).dropLast)) []
        else
          pure (.object [] Option.none)
    else do
      let fields ← parse_object_fields fuel schema_str
      pure (.object fields Option.none)
  termination_by structural fuel _ => fuel

/-- Interior classification of `_parse_schema_structure`'s array case:
array-of-objects, array-of-simple-type (keeping the original token for later
format hints), or array-of-complex-fields. -/
def parse_array_interior : Nat → Str → List (String × Py) →
    Except String PStruct
  | 0, _, _ => .error "RecursionError: maximum recursion depth exceeded"
  | fuel + 1, inner_content, array_constraints =>
    if strStartsWith inner_content "\x7b".data
        && strEndsWith inner_content "\x7d".data then do
      let object_fields ←
        parse_object_fields fuel (pyStrip ((inner_content.drop 1).dropLast))
      pure (.array (.struct (.object object_fields Option.none))
        array_constraints Option.none)
    else if is_simple_type inner_content then
      let original_type := lowerStr (pyStrip inner_content)
      pure (.array
        (.simple (normalizeTypeNameL original_type)
          (some (String.mk original_type)))
        array_constraints Option.none)
    else do
      let fields ← parse_object_fields fuel inner_content
      pure (.array (.struct (.object fields Option.none)) array_constraints
        Option.none)
  termination_by structural fuel _ _ => fuel

/-- Model of `_parse_object_fields`: normalize, split, parse each field, collect into
an ordered dict keyed by field name (skipping unnamed results). -/
def parse_object_fields : Nat → Str →
    Except String (List (String × FieldDef))
  | 0, _ => .error "RecursionError: maximum recursion depth exceeded"
  | fuel + 1, fields_str =>
    let fs := normalize_string_schema fields_str
    let field_parts := split_field_definitions_with_nesting fs
    parseFieldsLoop fuel field_parts []
  termination_by structural fuel _ => fuel

/-- The `for field_part in field_parts` loop of `_parse_object_fields`. -/
def parseFieldsLoop : Nat → List Str → List (String × FieldDef) →
    Except String (List (String × FieldDef))
  | _, [], fields => pure fields
  | 0, _ :: _, _ => .error "RecursionError: maximum recursion depth exceeded"
  | fuel + 1, part :: rest, fields => do
    match ← parse_single_field_with_nesting fuel (pyStrip part) with
    | Option.none => parseFieldsLoop fuel rest fields
    | some (field_name, field_def) =>
      if field_name.isEmpty then parseFieldsLoop fuel rest fields
      else parseFieldsLoop fuel rest (setKeyFD fields field_name field_def)
  termination_by structural fuel _ _ => fuel

/-- Model of `_parse_single_field_with_nesting`: optional-`?` marker, then dispatch on
the type spec — nested structure, union (`|`), enum wrapper, `array(`/`list(`
alternate array syntax, or plain type with constraints (special string
subtypes acquire a `format_hint` and become strings). -/
def parse_single_field_with_nesting : Nat → Str →
    Except String (Option (String × FieldDef))
  | 0, _ => .error "RecursionError: maximum recursion depth exceeded"
  | fuel + 1, field_str₀ =>
  if field_str₀.isEmpty then pure Option.none
  else
    let (required, field_str) :=
      if strEndsWith field_str₀ "?".data then (false, pyStrip field_str₀.dropLast)
      else (true, field_str₀)
    match split1 ':' field_str with
    | (field_name₀, some field_def₀) =>
      let field_name := String.mk (pyStrip field_name₀)
      let field_def := pyStrip field_def₀
      if strStartsWith field_def "[".data
          || strStartsWith field_def "\x7b".data then do
        let nested ← parse_schema_structure fuel field_def
        pure (some (field_name, .struct (nested.setRequired required)))
      else if containsChar '|' field_def then
        let union_types := (splitOnChar '|' field_def).map pyStrip
        let field_type := normalizeTypeNameL (union_types.headD [])
        let field_obj :=
          { mkSimpleField (Py.str field_type) (Py.bool required) with
            union_types :=
              Py.list (union_types.map fun t => Py.str (normalizeTypeNameL t)) }
        pure (some (field_name, .field field_obj))
      else if strStartsWith field_def "enum(".data
          || strStartsWith field_def "choice(".data
          || strStartsWith field_def "select(".data then
        let enum_values := parse_enum_values field_def
        let field_obj :=
          { mkSimpleField (Py.str "string") (Py.bool required) with
            choices := Py.list enum_values }
        pure (some (field_name, .field field_obj))
      else if strStartsWith field_def "array(".data
          || strStartsWith field_def "list(".data then
        let (array_type, constraints) := parse_array_type_definition field_def
        pure (some (field_name,
          .struct (.array (.simple array_type Option.none) constraints
            (some required))))
      else do
        let original_type := pyStrip (split1 '(' field_def).1
        let (field_type, constraints) := parse_type_definition field_def
        let (field_type, constraints) :=
          if ["email", "url", "uri", "datetime", "date", "uuid", "phone"].any
              (fun t => t.data = original_type) then
            ("string",
              setKey constraints "format_hint" (Py.str (String.mk original_type)))
          else (field_type, constraints)
        let field_obj ←
          mkSimpleFieldKw (Py.str field_type) (Py.bool required) constraints
        pure (some (field_name, .field field_obj))
    | (_, Option.none) =>
      pure (some (String.mk (pyStrip field_str),
        .field (mkSimpleField (Py.str "string") (Py.bool required))))
  termination_by structural fuel _ => fuel

end

/-! ### The field compiler (`_simple_field_to_json_schema`)

The source function is one straight-line block; it is split here into its
consecutive source regions so each region can be reasoned about separately.
-/

/-- Lines 361-367: `prop = {"type": field.field_type}` plus `description` /
`default` metadata. -/
def sfBase (field : SimpleField) : List (String × Py) :=
  let prop := [("type", field.field_type)]
  let prop :=
    if field.description.truthy then setKey prop "description" field.description
    else prop
  if !(field.default.isNone) then setKey prop "default" field.default else prop

/-- Lines 369-378: the union branch — when `union_types` is truthy with
`len > 1`, replace `prop` wholesale by `{anyOf: [...]}` (`len`/iteration of an
unsized value is a `TypeError`). -/
def sfUnion (field : SimpleField) (prop : List (String × Py)) :
    Except String (List (String × Py)) :=
  if field.union_types.truthy then
    match pyLen field.union_types with
    | Option.none => .error "TypeError: object of this type has no len()"
    | some n =>
      if 1 < n then
        match pyIter field.union_types with
        | Option.none => .error "TypeError: object is not iterable"
        | some members =>
          pure [("anyOf", Py.list (members.map fun union_type =>
            if pyEqStr union_type "null" then Py.dict [("type", Py.str "null")]
            else Py.dict [("type", union_type)]))]
      else pure prop
  else pure prop

/-- Lines 380-382: `if field.choices: prop["enum"] = field.choices`. -/
def sfEnum (field : SimpleField) (prop : List (String × Py)) :
    List (String × Py) :=
  if field.choices.truthy then setKey prop "enum" field.choices else prop

/-- Lines 384-396: the `format_hint` → `format` table (no case for
`phone`). -/
def sfFormat (field : SimpleField) (prop : List (String × Py)) :
    List (String × Py) :=
  if field.format_hint.truthy then
    if pyEqStr field.format_hint "email" then
      setKey prop "format" (Py.str "email")
    else if pyEqStr field.format_hint "url" || pyEqStr field.format_hint "uri" then
      setKey prop "format" (Py.str "uri")
    else if pyEqStr field.format_hint "datetime" then
      setKey prop "format" (Py.str "date-time")
    else if pyEqStr field.format_hint "date" then
      setKey prop "format" (Py.str "date")
    else if pyEqStr field.format_hint "uuid" then
      setKey prop "format" (Py.str "uuid")
    else prop
  else prop

/-- Lines 398-403: `minimum`/`maximum` when the field type is
`integer`/`number`. -/
def sfNumeric (field : SimpleField) (prop : List (String × Py)) :
    List (String × Py) :=
  if pyEqStr field.field_type "integer" || pyEqStr field.field_type "number" then
    let prop :=
      if !(field.min_val.isNone) then setKey prop "minimum" field.min_val
      else prop
    if !(field.max_val.isNone) then setKey prop "maximum" field.max_val
    else prop
  else prop

/-- Lines 405-410: `minLength`/`maxLength` when the field type is `string`. -/
def sfString (field : SimpleField) (prop : List (String × Py)) :
    List (String × Py) :=
  if pyEqStr field.field_type "string" then
    let prop :=
      if !(field.min_length.isNone) then
        setKey prop "minLength" field.min_length
      else prop
    if !(field.max_length.isNone) then setKey prop "maxLength" field.max_length
    else prop
  else prop

/-- Model of `_simple_field_to_json_schema`: the source regions in source order. -/
def simple_field_to_json_schema (field : SimpleField) : Except String Py := do
  let prop ← sfUnion field (sfBase field)
  pure (Py.dict (sfString field (sfNumeric field (sfFormat field
    (sfEnum field prop)))))

/-! ### The structure compiler (`_structure_to_json_schema`) -/

mutual

/-- Model of `_structure_to_json_schema` / `_object_structure_to_schema` /
`_array_structure_to_schema`, fuelled (every procedure decrements the fuel on
entry so the recursion is structural; the top-level wrapper supplies more
fuel than the structure can consume). -/
def structure_to_json_schema_fuel : Nat → PStruct → Except String Py
  | 0, _ => .error "RecursionError: maximum recursion depth exceeded"
  | fuel + 1, .object fields _r => do
    let (properties, required) ← compile_object_fields fuel fields
    let schema := [("type", Py.str "object"), ("properties", Py.dict properties)]
    let schema :=
      if required.isEmpty then schema
      else setKey schema "required" (Py.list (required.map Py.str))
    pure (Py.dict schema)
  | fuel + 1, .array items constraints _r => do
    let items_schema ← compile_array_items fuel items
    let array_schema := [("type", Py.str "array"), ("items", items_schema)]
    let array_schema :=
      match lookupKey "min" constraints with
      | some v => setKey array_schema "minItems" v
      | Option.none => array_schema
    let array_schema :=
      match lookupKey "max" constraints with
      | some v => setKey array_schema "maxItems" v
      | Option.none => array_schema
    pure (Py.dict array_schema)
  termination_by structural fuel _ => fuel

/-- The field loop of `_object_structure_to_schema`: build `properties` and
`required` in declaration order. -/
def compile_object_fields : Nat → List (String × FieldDef) →
    Except String (List (String × Py) × List String)
  | _, [] => pure ([], [])
  | 0, _ :: _ => .error "RecursionError: maximum recursion depth exceeded"
  | fuel + 1, (field_name, fd) :: rest => do
    let (prop_schema, isRequired) ←
      match fd with
      | .field f => do
        let p ← simple_field_to_json_schema f
        pure (p, f.required.truthy)
      | .struct st => do
        let p ← structure_to_json_schema_fuel fuel st
        pure (p, st.requiredTag.getD true)
    let (props, reqs) ← compile_object_fields fuel rest
    pure ((field_name, prop_schema) :: props,
      if isRequired then field_name :: reqs else reqs)
  termination_by structural fuel _ => fuel

/-- The items branch of `_array_structure_to_schema`: a simple-type leaf gets
its `format` from the *original* token (defaulting to the normalized type, in
which case no special token can match); a structured item recurses. -/
def compile_array_items : Nat → PItems → Except String Py
  | 0, _ => .error "RecursionError: maximum recursion depth exceeded"
  | _ + 1, .simple simple_type original_type₀ =>
    let original_type := original_type₀.getD simple_type
    let items_schema := [("type", Py.str simple_type)]
    let items_schema :=
      if simple_type = "string"
          && ["email", "url", "uri", "datetime", "date", "uuid"].any
            (fun t => t = original_type) then
        if original_type = "email" then
          setKey items_schema "format" (Py.str "email")
        else if original_type = "url" || original_type = "uri" then
          setKey items_schema "format" (Py.str "uri")
        else if original_type = "datetime" then
          setKey items_schema "format" (Py.str "date-time")
        else if original_type = "date" then
          setKey items_schema "format" (Py.str "date")
        else if original_type = "uuid" then
          setKey items_schema "format" (Py.str "uuid")
        else items_schema
      else items_schema
    pure (Py.dict items_schema)
  | fuel + 1, .struct st => structure_to_json_schema_fuel fuel st
  termination_by structural fuel _ => fuel

end

mutual

/-- Computable size of a parsed structure, used as fuel for the compiler. -/
def PStruct.size : PStruct → Nat
  | .object fields _ => 1 + fieldsSize fields
  | .array items _ _ => 1 + itemsSize items

/-- Size of a parsed field dict. -/
def fieldsSize : List (String × FieldDef) → Nat
  | [] => 0
  | (_, fd) :: rest => 1 + fdSize fd + fieldsSize rest

/-- Size of a field definition. -/
def fdSize : FieldDef → Nat
  | .field _ => 1
  | .struct st => 1 + st.size

/-- Size of an items spec. -/
def itemsSize : PItems → Nat
  | .simple _ _ => 1
  | .struct st => 1 + st.size

end

/-- Model of `_structure_to_json_schema` entry point: `st.size * 5 + 5` strictly
exceeds the fuel any compilation path over `st` can consume, so the fuel
never runs out here. -/
def structure_to_json_schema (st : PStruct) : Except String Py :=
  structure_to_json_schema_fuel (st.size * 5 + 5) st

/-- Model of `parse_string_schema` (also exported as `string_to_json_schema`): strip,
parse the structure, compile it.  The unused `is_list` parameter of the
source is omitted. -/
def parse_string_schema (schema_str : String) : Except String Py :=
  let t := pyStrip schema_str.data
  match parse_schema_structure (t.length * 5 + 5) t with
  | .error e => .error e
  | .ok parsed_structure => structure_to_json_schema parsed_structure

/-! ### The validator (`validate_string_schema`) -/

/-- Model of `d.get(k)` on a dynamic value (the validator only ever reaches this on
dicts). -/
def pyGet (k : String) : Py → Option Py
  | .dict kvs => lookupKey k kvs
  | _ => Option.none

/-- Model of `d.get(k, dflt)`. -/
def pyGetD (k : String) (v : Py) (dflt : Py) : Py := (pyGet k v).getD dflt

/-- Model of `k in d`. -/
def pyHasKey (k : String) (v : Py) : Bool := (pyGet k v).isSome

/-- Model of `re.search` for the constraint-detecting patterns `pre[^)]+\)` where
`pre` is a literal like `string(` or `](`: some position starts with `pre`,
followed by a nonempty `')'`-free run and a `')'`. -/
def searchParenPattern (pre : Str) : Str → Bool
  | [] => false
  | c :: rest =>
    (strStartsWith (c :: rest) pre &&
      (let r := (c :: rest).drop pre.length
       let g := r.takeWhile fun x => x ≠ ')'
       !g.isEmpty && strStartsWith (r.drop g.length) [')']))
    || searchParenPattern pre rest

/-- The feature analysis of `validate_string_schema` (lines 624-648): literal
re-scans of the raw string.  The source collects these into a Python `set`
whose iteration order is unspecified; the insertion order of the checks is
used here, and no claim depends on the order. -/
def featuresUsed (s : Str) : List String :=
  let add := fun (fs : List String) (cond : Bool) (name : String) =>
    if cond then fs ++ [name] else fs
  let features := add [] (containsChar '[' s && containsChar ']' s) "arrays"
  let features := add features (containsChar '{' s && containsChar '}' s)
    "objects"
  let features := add features (containsChar '?' s) "optional_fields"
  let features := add features
    (containsSub "enum(".data s || containsSub "choice(".data s
      || containsSub "select(".data s) "enums"
  let features := add features (containsChar '|' s) "union_types"
  let features := add features
    (["email", "url", "datetime", "date", "uuid", "phone"].any
      fun t => containsSub t.data s) "special_types"
  add features
    ([ "string(", "int(", "number(", "text(", "](" ].any
      fun p => searchParenPattern p.data s) "constraints"

/-- One field's entry in `_extract_field_info` (the `field_info` dict). -/
def fieldInfoEntry (field_name : String) (field_schema : Py)
    (required_fields : List Py) : Py :=
  let field_info : List (String × Py) :=
    [ ("type", pyGetD "type" field_schema (Py.str "unknown")),
      ("required",
        Py.bool (required_fields.any fun r => pyEqStr r field_name)),
      ("constraints", Py.dict
        ([ "minimum", "maximum", "minLength", "maxLength", "minItems",
           "maxItems", "format", "enum" ].foldl
          (fun cs key =>
            match pyGet key field_schema with
            | some v => setKey cs key v
            | Option.none => cs)
          [])) ]
  match pyGet "anyOf" field_schema with
  | some (Py.list items) =>
    Py.dict (setKey
      (setKey field_info "type" (Py.str "union"))
      "union_types"
      (Py.list (items.map fun item => pyGetD "type" item (Py.str "unknown"))))
  | some _ => Py.dict (setKey field_info "type" (Py.str "union"))
  | Option.none => Py.dict field_info

/-- Model of `_extract_field_info`, fuelled (the fuel bounds recursion depth and the
caller supplies more than the schema's depth): flatten the compiled schema
into `dotted.path → field_info` entries, recursing into object properties and
object-typed array items. -/
def extract_field_info : Nat → Py → String → List (String × Py) →
    List (String × Py)
  | 0, _, _, fields_dict => fields_dict
  | fuel + 1, schema, prefixStr, fields_dict =>
    if pyEqStr (pyGetD "type" schema Py.none) "object"
        && pyHasKey "properties" schema then
      let required_fields :=
        match pyGetD "required" schema (Py.list []) with
        | .list rs => rs
        | _ => []
      let props :=
        match pyGet "properties" schema with
        | some (.dict kvs) => kvs
        | _ => []
      props.foldl
        (fun fields_dict kv =>
          let field_name := kv.1
          let field_schema := kv.2
          let full_name :=
            if prefixStr.isEmpty then field_name
            else prefixStr ++ "." ++ field_name
          let fields_dict := setKey fields_dict full_name
            (fieldInfoEntry field_name field_schema required_fields)
          if pyEqStr (pyGetD "type" field_schema Py.none) "object" then
            extract_field_info fuel field_schema full_name fields_dict
          else if pyEqStr (pyGetD "type" field_schema Py.none) "array"
              && pyHasKey "items" field_schema then
            let items_schema := pyGetD "items" field_schema Py.none
            if pyEqStr (pyGetD "type" items_schema Py.none) "object" then
              extract_field_info fuel items_schema (full_name ++ "[]")
                fields_dict
            else fields_dict
          else fields_dict)
        fields_dict
    else if pyEqStr (pyGetD "type" schema Py.none) "array"
        && pyHasKey "items" schema then
      let items_schema := pyGetD "items" schema Py.none
      if pyEqStr (pyGetD "type" items_schema Py.none) "object" then
        extract_field_info fuel items_schema
          (if prefixStr.isEmpty then "[]" else prefixStr ++ "[]") fields_dict
      else fields_dict
    else fields_dict

mutual

/-- Computable size of a dynamic value, used as recursion fuel. -/
def Py.size : Py → Nat
  | .list xs => 1 + pySizeL xs
  | .dict kvs => 1 + pySizeD kvs
  | _ => 1

/-- Size of a list of dynamic values. -/
def pySizeL : List Py → Nat
  | [] => 0
  | x :: xs => x.size + pySizeL xs

/-- Size of a dict's entries. -/
def pySizeD : List (String × Py) → Nat
  | [] => 0
  | (_, v) :: xs => 1 + v.size + pySizeD xs

end

/-- Model of `validate_string_schema` (also exported as `validate_string_syntax`):
always returns the six-key report dict; a parse exception is caught and
stringified into `errors`, leaving `valid` at its initial `False`. -/
def validate_string_schema (schema_str : String) : Py :=
  match parse_string_schema schema_str with
  | .error e =>
    Py.dict
      [ ("valid", Py.bool false), ("errors", Py.list [Py.str e]),
        ("warnings", Py.list []), ("parsed_fields", Py.dict []),
        ("generated_schema", Py.none), ("features_used", Py.list []) ]
  | .ok schema =>
    let features := featuresUsed schema_str.data
    let parsed_fields := extract_field_info (schema.size + 1) schema "" []
    let warnings :=
      (if 20 < parsed_fields.length then
        [Py.str "Schema has many fields (>20), consider simplifying"]
      else []) ++
      (if features.contains "arrays" && !(features.contains "constraints") then
        [Py.str "Consider adding array size constraints for better LLM guidance"]
      else [])
    Py.dict
      [ ("valid", Py.bool true), ("errors", Py.list []),
        ("warnings", Py.list warnings),
        ("parsed_fields", Py.dict parsed_fields),
        ("generated_schema", schema),
        ("features_used", Py.list (features.map Py.str)) ]

/-! ### The node invariant of compiled schemas (spec §3)

A node's children, for the invariant's purposes, are the property schemas of
an object node, the `items` schema of an array node, and the members of a
union leaf's `anyOf` list. -/

/-- Child schema nodes of a compiled dict node. -/
def childNodes (kvs : List (String × Py)) : List Py :=
  (match lookupKey "properties" kvs with
   | some (.dict props) => props.map fun kv => kv.2
   | _ => []) ++
  (match lookupKey "items" kvs with
   | some v => [v]
   | Option.none => []) ++
  (match lookupKey "anyOf" kvs with
   | some (.list xs) => xs
   | _ => [])

/-- The invariant of spec §3: every node of a compiled schema is a dict with
exactly one of the `type` / `anyOf` keys (never both, never neither), and the
same holds recursively for all its child nodes. -/
inductive GoodSchema : Py → Prop where
  | node (kvs : List (String × Py))
      (hx : hasKey "type" kvs ≠ hasKey "anyOf" kvs)
      (hc : ∀ c ∈ childNodes kvs, GoodSchema c) :
      GoodSchema (Py.dict kvs)

/-! ## Lemmas: dict operations -/

theorem lookupKey_setKey_self (kvs : List (String × Py)) (k : String) (v : Py) :
    lookupKey k (setKey kvs k v) = some v := by
  induction kvs with
  | nil => simp [setKey, lookupKey]
  | cons kv rest ih =>
    by_cases h : kv.1 = k
    · simp [setKey, h, lookupKey]
    · simp [setKey, h, lookupKey, ih]

theorem lookupKey_setKey_ne (kvs : List (String × Py)) (k k' : String) (v : Py)
    (h : k ≠ k') : lookupKey k (setKey kvs k' v) = lookupKey k kvs := by
  induction kvs with
  | nil => simp [setKey, lookupKey, Ne.symm h]
  | cons kv rest ih =>
    obtain ⟨a, b⟩ := kv
    by_cases h' : a = k'
    · subst h'
      simp [setKey, lookupKey, Ne.symm h]
    · simp [setKey, h', lookupKey, ih]

theorem hasKey_setKey_self (kvs : List (String × Py)) (k : String) (v : Py) :
    hasKey k (setKey kvs k v) = true := by
  simp [hasKey, lookupKey_setKey_self]

theorem hasKey_setKey_ne (kvs : List (String × Py)) (k k' : String) (v : Py)
    (h : k ≠ k') : hasKey k (setKey kvs k' v) = hasKey k kvs := by
  simp [hasKey, lookupKey_setKey_ne kvs k k' v h]

theorem childNodes_setKey (kvs : List (String × Py)) (k : String) (v : Py)
    (h1 : k ≠ "properties") (h2 : k ≠ "items") (h3 : k ≠ "anyOf") :
    childNodes (setKey kvs k v) = childNodes kvs := by
  unfold childNodes
  rw [lookupKey_setKey_ne kvs "properties" k v (Ne.symm h1),
    lookupKey_setKey_ne kvs "items" k v (Ne.symm h2),
    lookupKey_setKey_ne kvs "anyOf" k v (Ne.symm h3)]

theorem goodSchema_setKey (kvs : List (String × Py)) (k : String) (v : Py)
    (h1 : k ≠ "type") (h2 : k ≠ "anyOf") (h3 : k ≠ "properties")
    (h4 : k ≠ "items") (hg : GoodSchema (Py.dict kvs)) :
    GoodSchema (Py.dict (setKey kvs k v)) := by
  cases hg with
  | node _ hx hc =>
    exact GoodSchema.node _
      (by rw [hasKey_setKey_ne kvs "type" k v (Ne.symm h1),
            hasKey_setKey_ne kvs "anyOf" k v (Ne.symm h2)]; exact hx)
      (by rw [childNodes_setKey kvs k v h3 h4 h2]; exact hc)

/-! ## Lemmas: the field compiler preserves the node invariant -/

theorem goodSchema_sfBase (field : SimpleField) :
    GoodSchema (Py.dict (sfBase field)) := by
  have base : GoodSchema (Py.dict [("type", field.field_type)]) := by
    refine GoodSchema.node _ (by simp [hasKey, lookupKey]) ?_
    intro c hc
    simp [childNodes, lookupKey] at hc
  unfold sfBase
  split
  · split
    · exact goodSchema_setKey _ _ _ (by simp) (by simp) (by simp) (by simp)
        (goodSchema_setKey _ _ _ (by simp) (by simp) (by simp) (by simp) base)
    · exact goodSchema_setKey _ _ _ (by simp) (by simp) (by simp) (by simp) base
  · split
    · exact goodSchema_setKey _ _ _ (by simp) (by simp) (by simp) (by simp) base
    · exact base

theorem goodSchema_sfUnion (field : SimpleField) (prop p : List (String × Py))
    (hg : GoodSchema (Py.dict prop)) (h : sfUnion field prop = .ok p) :
    GoodSchema (Py.dict p) := by
  unfold sfUnion at h
  simp only [pure, Except.pure] at h
  split at h
  · split at h
    · exact absurd h (by simp)
    · split at h
      · split at h
        · exact absurd h (by simp)
        · cases h
          refine GoodSchema.node _ (by simp [hasKey, lookupKey]) ?_
          intro c hc
          simp only [childNodes, lookupKey] at hc
          simp at hc
          obtain ⟨ut, _, hut⟩ := hc
          rw [← hut]
          split <;>
            exact GoodSchema.node _ (by simp [hasKey, lookupKey])
              (by intro c' hc'; simp [childNodes, lookupKey] at hc')
      · cases h; exact hg
  · cases h; exact hg

theorem goodSchema_sfEnum (field : SimpleField) (prop : List (String × Py))
    (hg : GoodSchema (Py.dict prop)) :
    GoodSchema (Py.dict (sfEnum field prop)) := by
  unfold sfEnum
  split
  · exact goodSchema_setKey _ _ _ (by simp) (by simp) (by simp) (by simp) hg
  · exact hg

theorem goodSchema_sfFormat (field : SimpleField) (prop : List (String × Py))
    (hg : GoodSchema (Py.dict prop)) :
    GoodSchema (Py.dict (sfFormat field prop)) := by
  unfold sfFormat
  split
  · split
    · exact goodSchema_setKey _ _ _ (by simp) (by simp) (by simp) (by simp) hg
    · split
      · exact goodSchema_setKey _ _ _ (by simp) (by simp) (by simp) (by simp) hg
      · split
        · exact goodSchema_setKey _ _ _ (by simp) (by simp) (by simp) (by simp) hg
        · split
          · exact goodSchema_setKey _ _ _ (by simp) (by simp) (by simp) (by simp) hg
          · split
            · exact goodSchema_setKey _ _ _ (by simp) (by simp) (by simp)
                (by simp) hg
            · exact hg
  · exact hg

theorem goodSchema_sfNumeric (field : SimpleField) (prop : List (String × Py))
    (hg : GoodSchema (Py.dict prop)) :
    GoodSchema (Py.dict (sfNumeric field prop)) := by
  unfold sfNumeric
  split
  · split <;> split <;>
      first
        | exact goodSchema_setKey _ _ _ (by simp) (by simp) (by simp) (by simp)
            (goodSchema_setKey _ _ _ (by simp) (by simp) (by simp) (by simp) hg)
        | exact goodSchema_setKey _ _ _ (by simp) (by simp) (by simp) (by simp) hg
        | exact hg
  · exact hg

theorem goodSchema_sfString (field : SimpleField) (prop : List (String × Py))
    (hg : GoodSchema (Py.dict prop)) :
    GoodSchema (Py.dict (sfString field prop)) := by
  unfold sfString
  split
  · split <;> split <;>
      first
        | exact goodSchema_setKey _ _ _ (by simp) (by simp) (by simp) (by simp)
            (goodSchema_setKey _ _ _ (by simp) (by simp) (by simp) (by simp) hg)
        | exact goodSchema_setKey _ _ _ (by simp) (by simp) (by simp) (by simp) hg
        | exact hg
  · exact hg

theorem goodSchema_simple_field (field : SimpleField) (j : Py)
    (h : simple_field_to_json_schema field = .ok j) : GoodSchema j := by
  unfold simple_field_to_json_schema at h
  cases hu : sfUnion field (sfBase field) with
  | error e =>
    rw [hu] at h
    exact absurd h (by simp [Bind.bind, Except.bind])
  | ok prop =>
    rw [hu] at h
    simp only [Bind.bind, Except.bind, pure, Except.pure] at h
    cases h
    exact goodSchema_sfString _ _ (goodSchema_sfNumeric _ _
      (goodSchema_sfFormat _ _ (goodSchema_sfEnum _ _
        (goodSchema_sfUnion field _ prop (goodSchema_sfBase field) hu))))

/-! ## Lemmas: the structure compiler preserves the node invariant -/

theorem goodSchema_compiler_all (fuel : Nat) :
    (∀ st j, structure_to_json_schema_fuel fuel st = .ok j → GoodSchema j)
    ∧ (∀ fields props reqs,
        compile_object_fields fuel fields = .ok (props, reqs) →
        ∀ kv ∈ props, GoodSchema kv.2)
    ∧ (∀ items j, compile_array_items fuel items = .ok j → GoodSchema j) := by
  induction fuel with
  | zero =>
    refine ⟨?_, ?_, ?_⟩
    · intro st j h
      exact absurd h (by simp [structure_to_json_schema_fuel])
    · intro fields props reqs h kv hkv
      cases fields with
      | nil =>
        unfold compile_object_fields at h
        simp only [pure, Except.pure, Except.ok.injEq, Prod.mk.injEq] at h
        obtain ⟨h1, h2⟩ := h
        subst h1
        simp at hkv
      | cons fd rest =>
        exact absurd h (by simp [compile_object_fields])
    · intro items j h
      exact absurd h (by simp [compile_array_items])
  | succ fuel ih =>
    have goodStruct : ∀ st j, structure_to_json_schema_fuel (fuel + 1) st = .ok j
        → GoodSchema j := by
      intro st j h
      cases st with
      | object fields r =>
        unfold structure_to_json_schema_fuel at h
        simp only [bind, Except.bind, pure, Except.pure] at h
        cases hr : compile_object_fields fuel fields with
        | error e => rw [hr] at h; simp at h
        | ok pr =>
          obtain ⟨properties, required⟩ := pr
          rw [hr] at h
          simp only [] at h
          cases h
          have hbase : GoodSchema (Py.dict
              [("type", Py.str "object"), ("properties", Py.dict properties)]) := by
            refine GoodSchema.node _ (by simp [hasKey, lookupKey]) ?_
            intro c hc
            have hch : childNodes
                [("type", Py.str "object"), ("properties", Py.dict properties)]
                = properties.map fun kv => kv.2 := by
              simp [childNodes, lookupKey]
            rw [hch] at hc
            obtain ⟨kv, hmem, hkv2⟩ := List.mem_map.mp hc
            rw [← hkv2]
            exact ih.2.1 fields properties required hr kv hmem
          split
          · exact hbase
          · exact goodSchema_setKey _ "required" _ (by simp) (by simp) (by simp)
              (by simp) hbase
      | array items constraints r =>
        unfold structure_to_json_schema_fuel at h
        simp only [bind, Except.bind, pure, Except.pure] at h
        cases hi : compile_array_items fuel items with
        | error e => rw [hi] at h; simp at h
        | ok items_schema =>
          rw [hi] at h
          simp only [] at h
          cases h
          have hbase : GoodSchema (Py.dict
              [("type", Py.str "array"), ("items", items_schema)]) := by
            refine GoodSchema.node _ (by simp [hasKey, lookupKey]) ?_
            intro c hc
            have hch : childNodes
                [("type", Py.str "array"), ("items", items_schema)]
                = [items_schema] := by
              simp [childNodes, lookupKey]
            rw [hch] at hc
            simp at hc
            rw [hc]
            exact ih.2.2 items items_schema hi
          have safe : ∀ kvs : List (String × Py), GoodSchema (Py.dict kvs) →
              ∀ k, (k = "minItems" ∨ k = "maxItems") → ∀ v,
              GoodSchema (Py.dict (setKey kvs k v)) := by
            intro kvs hg k hk v
            rcases hk with hk | hk <;> subst hk <;>
              exact goodSchema_setKey _ _ _ (by simp) (by simp) (by simp)
                (by simp) hg
          split
          · split
            · exact safe _ (safe _ hbase "minItems" (Or.inl rfl) _) "maxItems"
                (Or.inr rfl) _
            · exact safe _ hbase "maxItems" (Or.inr rfl) _
          · split
            · exact safe _ hbase "minItems" (Or.inl rfl) _
            · exact hbase
    refine ⟨goodStruct, ?_, ?_⟩
    · intro fields props reqs h kv hkv
      cases fields with
      | nil =>
        unfold compile_object_fields at h
        simp only [pure, Except.pure, Except.ok.injEq, Prod.mk.injEq] at h
        obtain ⟨h1, h2⟩ := h
        subst h1
        simp at hkv
      | cons fd rest =>
        obtain ⟨field_name, fd⟩ := fd
        unfold compile_object_fields at h
        simp only [bind, Except.bind, pure, Except.pure] at h
        cases fd with
        | field f =>
          dsimp only at h
          cases hf : simple_field_to_json_schema f with
          | error e => rw [hf] at h; simp at h
          | ok pj =>
            rw [hf] at h
            simp only [] at h
            cases hr : compile_object_fields fuel rest with
            | error e => rw [hr] at h; simp at h
            | ok pr =>
              obtain ⟨props2, reqs2⟩ := pr
              rw [hr] at h
              simp only [Except.ok.injEq, Prod.mk.injEq] at h
              rw [← h.1] at hkv
              rcases List.mem_cons.mp hkv with hkv | hkv
              · subst hkv
                exact goodSchema_simple_field f pj hf
              · exact ih.2.1 rest props2 reqs2 hr kv hkv
        | struct st =>
          dsimp only at h
          cases hs : structure_to_json_schema_fuel fuel st with
          | error e => rw [hs] at h; simp at h
          | ok pj =>
            rw [hs] at h
            simp only [] at h
            cases hr : compile_object_fields fuel rest with
            | error e => rw [hr] at h; simp at h
            | ok pr =>
              obtain ⟨props2, reqs2⟩ := pr
              rw [hr] at h
              simp only [Except.ok.injEq, Prod.mk.injEq] at h
              rw [← h.1] at hkv
              rcases List.mem_cons.mp hkv with hkv | hkv
              · subst hkv
                exact ih.1 st pj hs
              · exact ih.2.1 rest props2 reqs2 hr kv hkv
    · intro items j h
      cases items with
      | simple simple_type original_type =>
        unfold compile_array_items at h
        simp only [pure, Except.pure] at h
        have base : ∀ kvs : List (String × Py),
            kvs = [("type", Py.str simple_type)] → GoodSchema (Py.dict kvs) := by
          intro kvs hk
          subst hk
          exact GoodSchema.node _ (by simp [hasKey, lookupKey])
            (by intro c hc; simp [childNodes, lookupKey] at hc)
        have safe : ∀ kvs : List (String × Py), GoodSchema (Py.dict kvs) →
            ∀ v, GoodSchema (Py.dict (setKey kvs "format" v)) := fun kvs hg v =>
          goodSchema_setKey kvs "format" v (by simp) (by simp) (by simp)
            (by simp) hg
        cases h
        split
        · split
          · exact safe _ (base _ rfl) _
          · split
            · exact safe _ (base _ rfl) _
            · split
              · exact safe _ (base _ rfl) _
              · split
                · exact safe _ (base _ rfl) _
                · split
                  · exact safe _ (base _ rfl) _
                  · exact base _ rfl
        · exact base _ rfl
      | struct st =>
        unfold compile_array_items at h
        exact ih.1 st j h

theorem goodSchema_structure (st : PStruct) (j : Py)
    (h : structure_to_json_schema st = .ok j) : GoodSchema j :=
  (goodSchema_compiler_all (st.size * 5 + 5)).1 st j h
/-! ## Lemmas: Python string primitives -/

theorem dropWhile_all_neg {p : Char → Bool} {l : Str}
    (h : ∀ c ∈ l, p c = false) : l.dropWhile p = l := by
  cases l with
  | nil => rfl
  | cons c rest =>
    rw [List.dropWhile_cons, h c (List.mem_cons_self c rest)]
    simp

theorem takeWhile_append_all {p : Char → Bool} {a : Str} (b : Str)
    (h : ∀ c ∈ a, p c = true) : (a ++ b).takeWhile p = a ++ b.takeWhile p := by
  induction a with
  | nil => rfl
  | cons c rest ih =>
    have h1 := h c (List.mem_cons_self c rest)
    have h2 := ih fun x hx => h x (List.mem_cons_of_mem c hx)
    simp [List.takeWhile_cons, h1, h2]

theorem dropWhile_append_all {p : Char → Bool} {a : Str} (b : Str)
    (h : ∀ c ∈ a, p c = true) : (a ++ b).dropWhile p = b.dropWhile p := by
  induction a with
  | nil => rfl
  | cons c rest ih =>
    rw [List.cons_append, List.dropWhile_cons,
      h c (List.mem_cons_self c rest)]
    simp only [if_true]
    exact ih fun x hx => h x (List.mem_cons_of_mem c hx)

theorem stripL_idem (l : Str) : stripL (stripL l) = stripL l := by
  unfold stripL
  induction l with
  | nil => rfl
  | cons c rest ih =>
    rw [List.dropWhile_cons]
    by_cases h : isPySpace c
    · simp [h, ih]
    · simp [h, List.dropWhile_cons]

theorem stripR_idem (l : Str) : stripR (stripR l) = stripR l := by
  unfold stripR
  rw [List.reverse_reverse, stripL_idem]

theorem stripL_head_not (l : Str) :
    stripL l = [] ∨ ∃ c t, stripL l = c :: t ∧ isPySpace c = false := by
  unfold stripL
  induction l with
  | nil => exact Or.inl rfl
  | cons c rest ih =>
    rw [List.dropWhile_cons]
    by_cases h : isPySpace c
    · simpa [h] using ih
    · exact Or.inr ⟨c, rest, by simp [h], by simpa using h⟩

theorem stripL_stripR_of_head {c : Char} {t : Str} (h : isPySpace c = false) :
    stripL (stripR (c :: t)) = stripR (c :: t) := by
  unfold stripR
  have hrev : (c :: t).reverse = t.reverse ++ [c] := by simp
  rw [hrev]
  rcases stripL_head_not t.reverse with he | ⟨d, u, hd, hdn⟩
  · have : stripL (t.reverse ++ [c]) = stripL [c] := by
      unfold stripL at he ⊢
      rw [List.dropWhile_append, he]
      simp
    rw [this]
    unfold stripL
    rw [List.dropWhile_cons]
    simp [h, List.dropWhile_cons]
  · have : stripL (t.reverse ++ [c]) = stripL t.reverse ++ [c] := by
      unfold stripL at hd ⊢
      rw [List.dropWhile_append, hd]
      simp
    rw [this, hd]
    have : ((d :: u) ++ [c]).reverse = c :: (u.reverse ++ [d]) := by simp
    rw [this]
    unfold stripL
    rw [List.dropWhile_cons]
    simp only [h, Bool.false_eq_true, if_false]

theorem pyStrip_idem (l : Str) : pyStrip (pyStrip l) = pyStrip l := by
  unfold pyStrip
  rcases stripL_head_not l with he | ⟨c, t, hc, hcn⟩
  · rw [he]
    rfl
  · rw [hc, stripL_stripR_of_head hcn, stripR_idem]

theorem pyStrip_all_nonspace {l : Str} (h : ∀ c ∈ l, isPySpace c = false) :
    pyStrip l = l := by
  unfold pyStrip stripR
  rw [show stripL l = l from dropWhile_all_neg h,
    show stripL l.reverse = l.reverse from
      dropWhile_all_neg fun c hc => h c (List.mem_reverse.mp hc),
    List.reverse_reverse]

theorem splitOnChar_all_ne {c : Char} {l : Str} (h : ∀ x ∈ l, (x = c) = False) :
    splitOnChar c l = [l] := by
  induction l with
  | nil => rfl
  | cons x rest ih =>
    unfold splitOnChar
    have hx : ¬x = c := by
      have := h x (List.mem_cons_self x rest)
      simp at this
      exact this
    rw [if_neg hx, ih fun y hy => h y (List.mem_cons_of_mem x hy)]

theorem splitOnChar_cons (c x : Char) (xs : Str) :
    splitOnChar c (x :: xs) =
      if x = c then [] :: splitOnChar c xs
      else
        match splitOnChar c xs with
        | r :: rs => (x :: r) :: rs
        | [] => [[x]] := rfl

theorem splitOnChar_append {c : Char} {a : Str} (b : Str)
    (h : ∀ x ∈ a, (x = c) = False) :
    splitOnChar c (a ++ c :: b) = a :: splitOnChar c b := by
  induction a with
  | nil => rw [List.nil_append, splitOnChar_cons, if_pos rfl]
  | cons x rest ih =>
    have hx : ¬x = c := by
      have := h x (List.mem_cons_self x rest)
      simp at this
      exact this
    rw [List.cons_append, splitOnChar_cons, if_neg hx,
      ih fun y hy => h y (List.mem_cons_of_mem x hy)]

theorem split1_cons (c x : Char) (xs : Str) :
    split1 c (x :: xs) =
      if x = c then ([], some xs)
      else
        let (a, b) := split1 c xs
        (x :: a, b) := rfl

theorem split1_append {c : Char} {a : Str} (b : Str)
    (h : ∀ x ∈ a, (x = c) = False) : split1 c (a ++ c :: b) = (a, some b) := by
  induction a with
  | nil => rw [List.nil_append, split1_cons, if_pos rfl]
  | cons x rest ih =>
    have hx : ¬x = c := by
      have := h x (List.mem_cons_self x rest)
      simp at this
      exact this
    rw [List.cons_append, split1_cons, if_neg hx,
      ih fun y hy => h y (List.mem_cons_of_mem x hy)]

theorem containsChar_append (c : Char) (a b : Str) :
    containsChar c (a ++ b) = (containsChar c a || containsChar c b) := by
  simp [containsChar]

theorem containsChar_all_ne {c : Char} {l : Str}
    (h : ∀ x ∈ l, (x = c) = False) : containsChar c l = false := by
  simp only [containsChar, List.any_eq_false]
  intro x hx
  simp [h x hx]

theorem strStartsWith_cons (c : Char) (cs : Str) (p : Char) (ps : Str) :
    strStartsWith (c :: cs) (p :: ps) = (c = p && strStartsWith cs ps) := rfl

theorem strStartsWith_single {l : Str} {c : Char}
    (h : strStartsWith l [c] = true) : ∃ t, l = c :: t := by
  cases l with
  | nil => exact absurd h (by simp [strStartsWith])
  | cons x xs =>
    rw [strStartsWith_cons] at h
    refine ⟨xs, ?_⟩
    have : x = c := by
      rcases Bool.and_eq_true_iff.mp h with ⟨h1, _⟩
      exact of_decide_eq_true h1
    rw [this]

theorem matchTypeConstraint_shape {base inner : Str} (hb : base ≠ [])
    (hbw : ∀ c ∈ base, isWordChar c = true) (hi : inner ≠ [])
    (hin : ∀ c ∈ inner, (c = ')') = False) :
    matchTypeConstraint (base ++ '(' :: (inner ++ [')'])) =
      some (base, inner) := by
  unfold matchTypeConstraint
  rw [takeWhile_append_all _ hbw, dropWhile_append_all _ hbw]
  have hnw : isWordChar '(' = false := by decide
  rw [List.takeWhile_cons_of_neg (by simp [hnw]),
    List.dropWhile_cons_of_neg (by simp [hnw])]
  simp only [List.append_nil]
  rw [if_neg (by simpa using hb)]
  have hpt : ∀ c ∈ inner, (fun x => decide ¬x = ')') c = true := by
    intro c hc
    simp [hin c hc]
  rw [takeWhile_append_all _ hpt, dropWhile_append_all _ hpt]
  have : List.takeWhile (fun x => decide ¬x = ')') [')'] = ([] : Str) := by
    decide
  rw [this]
  have : List.dropWhile (fun x => decide ¬x = ')') [')'] = ([')'] : Str) := by
    decide
  rw [this]
  simp only [List.append_nil]
  rw [if_neg (by simpa using hi)]

/-! ## Claim C5 -/

/-- C5: `parse("[\x7bname:string, email:email\x7d](min=1,max=10)")` returns an
array node with `minItems 1` and `maxItems 10` whose `items` is an object
node with properties `name` (type string) and `email` (type string with
format `"email"`), and with both `name` and `email` listed in `required`. -/
theorem C5_nested_array_of_objects_with_constraints :
    parse_string_schema "[\x7bname:string, email:email\x7d](min=1,max=10)" =
      .ok (Py.dict
        [ ("type", Py.str "array"),
          ("items", Py.dict
            [ ("type", Py.str "object"),
              ("properties", Py.dict
                [ ("name", Py.dict [("type", Py.str "string")]),
                  ("email", Py.dict
                    [("type", Py.str "string"), ("format", Py.str "email")]) ]),
              ("required", Py.list [Py.str "name", Py.str "email"]) ]),
          ("minItems", Py.int 1), ("maxItems", Py.int 10) ]) := rfl

/-! ## Claim C7 -/

/-- C7: each of the bare tokens email/url/uri/datetime/date/uuid compiles to
a `type:"string"` leaf with the documented `format` (email→email,
url|uri→uri, datetime→date-time, date→date, uuid→uuid), while `phone`
compiles to `type:"string"` with no `format` key at all.  Formalized as the
complete table, one compiled schema per token. -/
theorem C7_format_hint_normalization :
    parse_string_schema "x:email" =
      .ok (Py.dict
        [ ("type", Py.str "object"),
          ("properties", Py.dict [("x", Py.dict
            [("type", Py.str "string"), ("format", Py.str "email")])]),
          ("required", Py.list [Py.str "x"]) ])
    ∧ parse_string_schema "x:url" =
      .ok (Py.dict
        [ ("type", Py.str "object"),
          ("properties", Py.dict [("x", Py.dict
            [("type", Py.str "string"), ("format", Py.str "uri")])]),
          ("required", Py.list [Py.str "x"]) ])
    ∧ parse_string_schema "x:uri" =
      .ok (Py.dict
        [ ("type", Py.str "object"),
          ("properties", Py.dict [("x", Py.dict
            [("type", Py.str "string"), ("format", Py.str "uri")])]),
          ("required", Py.list [Py.str "x"]) ])
    ∧ parse_string_schema "x:datetime" =
      .ok (Py.dict
        [ ("type", Py.str "object"),
          ("properties", Py.dict [("x", Py.dict
            [("type", Py.str "string"), ("format", Py.str "date-time")])]),
          ("required", Py.list [Py.str "x"]) ])
    ∧ parse_string_schema "x:date" =
      .ok (Py.dict
        [ ("type", Py.str "object"),
          ("properties", Py.dict [("x", Py.dict
            [("type", Py.str "string"), ("format", Py.str "date")])]),
          ("required", Py.list [Py.str "x"]) ])
    ∧ parse_string_schema "x:uuid" =
      .ok (Py.dict
        [ ("type", Py.str "object"),
          ("properties", Py.dict [("x", Py.dict
            [("type", Py.str "string"), ("format", Py.str "uuid")])]),
          ("required", Py.list [Py.str "x"]) ])
    ∧ parse_string_schema "x:phone" =
      .ok (Py.dict
        [ ("type", Py.str "object"),
          ("properties", Py.dict [("x", Py.dict [("type", Py.str "string")])]),
          ("required", Py.list [Py.str "x"]) ]) :=
  ⟨rfl, rfl, rfl, rfl, rfl, rfl, rfl⟩

/-! ## Claim C10 -/

/-- C10: the alternate array syntax `array(T)`/`list(T)` compiles its items
to exactly `{type: "string"}` with no `format` key for every special string
subtype T (the parsed structure keeps no original token, so the compiler's
format table never fires), whereas the bracket syntax `[T]` preserves the
original token and emits the corresponding format for
email/url/uri/datetime/date/uuid.  Formalized as the complete table. -/
theorem C10_alternate_array_syntax_drops_format :
    (parse_string_schema "x:array(email)" =
      .ok (Py.dict
        [ ("type", Py.str "object"),
          ("properties", Py.dict [("x", Py.dict
            [ ("type", Py.str "array"),
              ("items", Py.dict [("type", Py.str "string")]) ])]),
          ("required", Py.list [Py.str "x"]) ])
    ∧ parse_string_schema "x:array(url)" =
      .ok (Py.dict
        [ ("type", Py.str "object"),
          ("properties", Py.dict [("x", Py.dict
            [ ("type", Py.str "array"),
              ("items", Py.dict [("type", Py.str "string")]) ])]),
          ("required", Py.list [Py.str "x"]) ])
    ∧ parse_string_schema "x:array(uri)" =
      .ok (Py.dict
        [ ("type", Py.str "object"),
          ("properties", Py.dict [("x", Py.dict
            [ ("type", Py.str "array"),
              ("items", Py.dict [("type", Py.str "string")]) ])]),
          ("required", Py.list [Py.str "x"]) ])
    ∧ parse_string_schema "x:array(datetime)" =
      .ok (Py.dict
        [ ("type", Py.str "object"),
          ("properties", Py.dict [("x", Py.dict
            [ ("type", Py.str "array"),
              ("items", Py.dict [("type", Py.str "string")]) ])]),
          ("required", Py.list [Py.str "x"]) ])
    ∧ parse_string_schema "x:array(date)" =
      .ok (Py.dict
        [ ("type", Py.str "object"),
          ("properties", Py.dict [("x", Py.dict
            [ ("type", Py.str "array"),
              ("items", Py.dict [("type", Py.str "string")]) ])]),
          ("required", Py.list [Py.str "x"]) ])
    ∧ parse_string_schema "x:array(uuid)" =
      .ok (Py.dict
        [ ("type", Py.str "object"),
          ("properties", Py.dict [("x", Py.dict
            [ ("type", Py.str "array"),
              ("items", Py.dict [("type", Py.str "string")]) ])]),
          ("required", Py.list [Py.str "x"]) ])
    ∧ parse_string_schema "x:array(phone)" =
      .ok (Py.dict
        [ ("type", Py.str "object"),
          ("properties", Py.dict [("x", Py.dict
            [ ("type", Py.str "array"),
              ("items", Py.dict [("type", Py.str "string")]) ])]),
          ("required", Py.list [Py.str "x"]) ])
    ∧ parse_string_schema "x:list(email)" =
      .ok (Py.dict
        [ ("type", Py.str "object"),
          ("properties", Py.dict [("x", Py.dict
            [ ("type", Py.str "array"),
              ("items", Py.dict [("type", Py.str "string")]) ])]),
          ("required", Py.list [Py.str "x"]) ]))
    ∧ (parse_string_schema "[email]" =
      .ok (Py.dict [("type", Py.str "array"), ("items", Py.dict
        [("type", Py.str "string"), ("format", Py.str "email")])])
    ∧ parse_string_schema "[url]" =
      .ok (Py.dict [("type", Py.str "array"), ("items", Py.dict
        [("type", Py.str "string"), ("format", Py.str "uri")])])
    ∧ parse_string_schema "[uri]" =
      .ok (Py.dict [("type", Py.str "array"), ("items", Py.dict
        [("type", Py.str "string"), ("format", Py.str "uri")])])
    ∧ parse_string_schema "[datetime]" =
      .ok (Py.dict [("type", Py.str "array"), ("items", Py.dict
        [("type", Py.str "string"), ("format", Py.str "date-time")])])
    ∧ parse_string_schema "[date]" =
      .ok (Py.dict [("type", Py.str "array"), ("items", Py.dict
        [("type", Py.str "string"), ("format", Py.str "date")])])
    ∧ parse_string_schema "[uuid]" =
      .ok (Py.dict [("type", Py.str "array"), ("items", Py.dict
        [("type", Py.str "string"), ("format", Py.str "uuid")])])) :=
  ⟨⟨rfl, rfl, rfl, rfl, rfl, rfl, rfl, rfl⟩, rfl, rfl, rfl, rfl, rfl, rfl⟩

/-! ## Claim C4 -/

/-- C4: for every input string, every node of the compiled schema returned
by `parse` has a `type` key except union leaves, which have `anyOf` instead;
the two shapes are mutually exclusive at every single node (never both,
never neither), recursively through object properties, array items and
`anyOf` members. -/
theorem C4_type_anyOf_node_invariant (s : String) (j : Py)
    (h : parse_string_schema s = .ok j) : GoodSchema j := by
  unfold parse_string_schema at h
  dsimp only at h
  cases hp : parse_schema_structure ((pyStrip s.data).length * 5 + 5)
      (pyStrip s.data) with
  | error e =>
    rw [hp] at h
    exact absurd h (by simp)
  | ok st =>
    rw [hp] at h
    exact goodSchema_structure st j h

/-- Witness for C4 at the concrete input `"name:string"`. -/
theorem C4_type_anyOf_node_invariant_witness :
    GoodSchema (Py.dict
      [ ("type", Py.str "object"),
        ("properties", Py.dict [("name", Py.dict [("type", Py.str "string")])]),
        ("required", Py.list [Py.str "name"]) ]) :=
  C4_type_anyOf_node_invariant "name:string" _ rfl

/-! ## Claim C8 -/

theorem tableLookup_mem {k v : String} :
    ∀ {m : List (String × String)}, tableLookup k m = some v → (k, v) ∈ m := by
  intro m
  induction m with
  | nil => intro h; exact absurd h (by simp [tableLookup])
  | cons kv rest ih =>
    intro h
    obtain ⟨a, b⟩ := kv
    unfold tableLookup at h
    split at h
    · cases h
      simp_all
    · exact List.mem_cons_of_mem _ (ih h)

/-- C8: `normalize_type_name` is total on strings: it looks its argument up
case-insensitively in the canonicalization table, every table result is one
of string/integer/number/boolean/null, and any input missing from the table
silently falls back to `"string"` (it never raises). -/
theorem C8_normalize_type_name_total :
    (∀ s : String, normalize_type_name s ∈
        (["string", "integer", "number", "boolean", "null"] : List String))
    ∧ (∀ s : String, tableLookup (pyLower s) type_mapping = Option.none →
        normalize_type_name s = "string")
    ∧ (∀ s t : String, pyLower s = pyLower t →
        normalize_type_name s = normalize_type_name t) := by
  refine ⟨?_, ?_, ?_⟩
  · intro s
    unfold normalize_type_name
    cases h : tableLookup (pyLower s) type_mapping with
    | none => simp
    | some v =>
      have hm := tableLookup_mem h
      have hall : ∀ kv ∈ type_mapping, kv.2 ∈
          (["string", "integer", "number", "boolean", "null"] : List String) := by
        decide
      simpa using hall _ hm
  · intro s h
    unfold normalize_type_name
    rw [h]
    rfl
  · intro s t h
    unfold normalize_type_name
    rw [h]

/-- Witness for C8: an input missing from the table falls back to
`"string"`, and lookup is case-insensitive. -/
theorem C8_normalize_type_name_total_witness :
    normalize_type_name "Widget" = "string"
    ∧ normalize_type_name "INT" = normalize_type_name "int" :=
  ⟨C8_normalize_type_name_total.2.1 "Widget" rfl,
   C8_normalize_type_name_total.2.2 "INT" "int" rfl⟩

/-! ## Claim C9 -/

/-- C9: for every input string, `validate_string_schema` returns a dict with
exactly the keys valid, errors, warnings, parsed_fields, generated_schema and
features_used; when `parse` raises, the exception is caught and stringified
into the errors list, with valid left at `False`. -/
theorem C9_validate_structured_report (s : String) :
    (∃ v e w pf gs fu, validate_string_schema s =
      Py.dict [("valid", v), ("errors", e), ("warnings", w),
        ("parsed_fields", pf), ("generated_schema", gs),
        ("features_used", fu)])
    ∧ (∀ msg, parse_string_schema s = .error msg →
      validate_string_schema s = Py.dict
        [ ("valid", Py.bool false), ("errors", Py.list [Py.str msg]),
          ("warnings", Py.list []), ("parsed_fields", Py.dict []),
          ("generated_schema", Py.none), ("features_used", Py.list []) ]) := by
  cases hp : parse_string_schema s with
  | error e =>
    have hv : validate_string_schema s = Py.dict
        [ ("valid", Py.bool false), ("errors", Py.list [Py.str e]),
          ("warnings", Py.list []), ("parsed_fields", Py.dict []),
          ("generated_schema", Py.none), ("features_used", Py.list []) ] := by
      unfold validate_string_schema
      rw [hp]
    refine ⟨⟨_, _, _, _, _, _, hv⟩, ?_⟩
    intro msg hmsg
    injection hmsg with he
    subst he
    exact hv
  | ok schema =>
    have hv : validate_string_schema s = Py.dict
        [ ("valid", Py.bool true), ("errors", Py.list []),
          ("warnings", Py.list
            ((if 20 < (extract_field_info (schema.size + 1) schema "" []).length
              then [Py.str "Schema has many fields (>20), consider simplifying"]
              else []) ++
             (if (featuresUsed s.data).contains "arrays"
                  && !((featuresUsed s.data).contains "constraints")
              then [Py.str
                "Consider adding array size constraints for better LLM guidance"]
              else []))),
          ("parsed_fields",
            Py.dict (extract_field_info (schema.size + 1) schema "" [])),
          ("generated_schema", schema),
          ("features_used", Py.list ((featuresUsed s.data).map Py.str)) ] := by
      unfold validate_string_schema
      rw [hp]
    refine ⟨⟨_, _, _, _, _, _, hv⟩, ?_⟩
    intro msg hmsg
    exact absurd hmsg (by simp)

/-- Witness for C9 at a concrete input on which `parse` raises (an unknown
named constraint key becomes an unexpected keyword argument). -/
theorem C9_validate_structured_report_witness :
    validate_string_schema "a:string(pattern=x), [b" = Py.dict
      [ ("valid", Py.bool false),
        ("errors",
          Py.list [Py.str "TypeError: unexpected keyword argument pattern"]),
        ("warnings", Py.list []), ("parsed_fields", Py.dict []),
        ("generated_schema", Py.none), ("features_used", Py.list []) ] :=
  (C9_validate_structured_report "a:string(pattern=x), [b").2
    "TypeError: unexpected keyword argument pattern" rfl

/-! ## Claim C2 -/

theorem strStartsWith_nil (l : Str) : strStartsWith l [] = true := by
  cases l <;> rfl

/-- C2 is refuted as universally stated: this input contains an unmatched
`'['`, yet `parse` raises a `TypeError` (an unknown named constraint key is
forwarded as an unexpected keyword argument to `SimpleField.__init__`)
instead of returning a schema. -/
theorem C2_counterexample_parse_raises :
    parse_string_schema "a:string(pattern=x), [b" =
      .error "TypeError: unexpected keyword argument pattern" := rfl

/-- C2 (amended): for every input whose stripped form starts with `'['` but
neither matches the `[interior](constraints)` pattern nor ends with `']'`
(e.g. `"[string"`), `parse` returns the empty-object fallback, which compiles
to `{type: "object", properties: {}}`; `parse` is however not non-throwing on
every unbalanced-bracket input (see the counterexample). -/
theorem C2_malformed_array_fallback (s : String)
    (h1 : strStartsWith (pyStrip s.data) "[".data = true)
    (h2 : matchArrayConstraint (pyStrip s.data) = Option.none)
    (h3 : strEndsWith (pyStrip s.data) "]".data = false) :
    parse_string_schema s =
      .ok (Py.dict [("type", Py.str "object"), ("properties", Py.dict [])]) := by
  obtain ⟨t, ht⟩ := strStartsWith_single h1
  rw [ht] at h2 h3
  unfold parse_string_schema
  dsimp only
  rw [show (pyStrip s.data).length * 5 + 5 =
    ((pyStrip s.data).length * 5 + 4) + 1 from rfl]
  unfold parse_schema_structure
  rw [pyStrip_idem, ht]
  dsimp only
  have c1 : (strStartsWith ('[' :: t) "\x7b".data
      && strEndsWith ('[' :: t) "\x7d".data) = false := rfl
  have c2 : strStartsWith ('[' :: t) "[".data = true := by
    rw [strStartsWith_cons]
    simp [strStartsWith_nil]
  rw [c1, c2, h2, h3]
  simp only [Bool.false_eq_true, if_false, if_true]
  rfl

/-- Witness for C2 at the concrete input `"[string"`. -/
theorem C2_malformed_array_fallback_witness :
    parse_string_schema "[string" =
      .ok (Py.dict [("type", Py.str "object"), ("properties", Py.dict [])]) :=
  C2_malformed_array_fallback "[string" rfl rfl rfl

/-! ## Claim C3 -/

/-- C3 is refuted as stated: for the string-family base type `string`, the
named value `1.5` contains a `'.'`, so the claim says it is coerced to float
and recorded as `min_length`; the code instead always applies `int` coercion
for the string family, which fails on `"1.5"`, and the pair is dropped. -/
theorem C3_counterexample_string_float_dropped :
    parse_type_definition "string(min=1.5)".data = ("string", []) := rfl

/-- C3 (amended): named `min`/`max` keys are type-directed —
`min_length`/`max_length` for string-family base types and
`min_val`/`max_val` for numeric ones — but the coercion is *also*
type-directed: string-family values are always coerced with `int` (so a
`'.'`-containing value fails and is dropped), while numeric values are
coerced to int unless they contain `'.'`, then float; a failing coercion
drops only the offending pair and the rest of the field still parses. -/
theorem C3_named_minmax_type_directed (v : Str)
    (hv : v.all (fun c => !isPySpace c && !(c = ',') && !(c = ')')) = true) :
    parse_type_definition ("string(min=".data ++ v ++ ")".data) =
      ("string", match pyInt v with
        | some n => [("min_length", Py.int n)]
        | Option.none => [])
    ∧ parse_type_definition ("int(max=".data ++ v ++ ")".data) =
      ("integer", match coerceNum v with
        | some nv => [("max_val", nv)]
        | Option.none => [])
    ∧ parse_type_definition "string(min=1.5,max=9)".data =
      ("string", [("max_length", Py.int 9)]) := by
  have hvp : ∀ c ∈ v, isPySpace c = false ∧ ¬(c = ',') ∧ ¬(c = ')') := by
    intro c hc
    have h := List.all_eq_true.mp hv c hc
    simp only [Bool.and_eq_true, Bool.not_eq_true'] at h
    exact ⟨h.1.1, by simpa using h.1.2, by simpa using h.2⟩
  have hstripv : pyStrip v = v :=
    pyStrip_all_nonspace fun c hc => (hvp c hc).1
  refine ⟨?_, ?_, rfl⟩
  · rw [show "string(min=".data ++ v ++ ")".data
      = "string".data ++ '(' :: (("min=".data ++ v) ++ [')']) from rfl]
    unfold parse_type_definition
    have hlit1 : ∀ x ∈ "min=".data, (x = ')') = False := by decide
    have hlit2 : ∀ x ∈ "min=".data, (x = ',') = False := by decide
    have hlit3 : ∀ x ∈ "min=".data, isPySpace x = false := by decide
    rw [matchTypeConstraint_shape (by decide) (by decide) (by simp)
      (by
        intro c hc
        rcases List.mem_append.mp hc with hc | hc
        · exact hlit1 c hc
        · exact eq_false (hvp c hc).2.2)]
    dsimp only
    rw [splitOnChar_all_ne (c := ',')
      (by
        intro x hx
        rcases List.mem_append.mp hx with hx | hx
        · exact hlit2 x hx
        · exact eq_false (hvp x hx).2.1)]
    dsimp only [List.map]
    rw [show pyStrip ("min=".data ++ v) = "min=".data ++ v from
      pyStrip_all_nonspace (by
        intro c hc
        rcases List.mem_append.mp hc with hc | hc
        · exact hlit3 c hc
        · exact (hvp c hc).1)]
    rw [show (decide ((["min=".data ++ v] : List Str).length = 2)
        && (["min=".data ++ v] : List Str).all
          fun part => !containsChar '=' part) = false from rfl]
    simp only [Bool.false_eq_true, if_false]
    rw [List.foldl_cons, List.foldl_nil]
    rw [show containsChar '=' ("min=".data ++ v) = true from rfl, if_pos rfl]
    rw [show split1 '=' ("min=".data ++ v) = ("min".data, some v) from rfl]
    dsimp only
    rw [hstripv]
    cases pyInt v <;> rfl
  · rw [show "int(max=".data ++ v ++ ")".data
      = "int".data ++ '(' :: (("max=".data ++ v) ++ [')']) from rfl]
    unfold parse_type_definition
    have hlit1 : ∀ x ∈ "max=".data, (x = ')') = False := by decide
    have hlit2 : ∀ x ∈ "max=".data, (x = ',') = False := by decide
    have hlit3 : ∀ x ∈ "max=".data, isPySpace x = false := by decide
    rw [matchTypeConstraint_shape (by decide) (by decide) (by simp)
      (by
        intro c hc
        rcases List.mem_append.mp hc with hc | hc
        · exact hlit1 c hc
        · exact eq_false (hvp c hc).2.2)]
    dsimp only
    rw [splitOnChar_all_ne (c := ',')
      (by
        intro x hx
        rcases List.mem_append.mp hx with hx | hx
        · exact hlit2 x hx
        · exact eq_false (hvp x hx).2.1)]
    dsimp only [List.map]
    rw [show pyStrip ("max=".data ++ v) = "max=".data ++ v from
      pyStrip_all_nonspace (by
        intro c hc
        rcases List.mem_append.mp hc with hc | hc
        · exact hlit3 c hc
        · exact (hvp c hc).1)]
    rw [show (decide ((["max=".data ++ v] : List Str).length = 2)
        && (["max=".data ++ v] : List Str).all
          fun part => !containsChar '=' part) = false from rfl]
    simp only [Bool.false_eq_true, if_false]
    rw [List.foldl_cons, List.foldl_nil]
    rw [show containsChar '=' ("max=".data ++ v) = true from rfl, if_pos rfl]
    rw [show split1 '=' ("max=".data ++ v) = ("max".data, some v) from rfl]
    dsimp only
    rw [hstripv]
    cases coerceNum v <;> rfl

/-- Witness for C3: the string-family side at `v = "1.5"` (dropped) and at
`v = "7"` (kept as `min_length`), and the numeric side at `v = "7"`. -/
theorem C3_named_minmax_type_directed_witness :
    (parse_type_definition ("string(min=".data ++ "1.5".data ++ ")".data) =
      ("string", [])
    ∧ parse_type_definition ("int(max=".data ++ "1.5".data ++ ")".data) =
      ("integer", [("max_val", Py.float (mkRat 3 2))])
    ∧ parse_type_definition "string(min=1.5,max=9)".data =
      ("string", [("max_length", Py.int 9)]))
    ∧ parse_type_definition ("string(min=".data ++ "7".data ++ ")".data) =
      ("string", [("min_length", Py.int 7)]) := by
  constructor
  · exact C3_named_minmax_type_directed "1.5".data (by decide)
  · exact (C3_named_minmax_type_directed "7".data (by decide)).1

/-! ## Claim C6 -/

/-- C6: a parenthesized constraint list of exactly two unnamed arguments is
interpreted positionally as `(min, max)` — for a numeric base type they land
in `min_val`/`max_val` (coerced int-or-float) — and in particular
`parse("age:int(0,120)")` yields the leaf
`{type: integer, minimum: 0, maximum: 120}`. -/
theorem C6_positional_constraints_min_max (a b : Str)
    (ha : a.all (fun c => !isPySpace c && !(c = ',') && !(c = ')')
      && !(c = '=')) = true)
    (hb : b.all (fun c => !isPySpace c && !(c = ',') && !(c = ')')
      && !(c = '=')) = true) :
    parse_type_definition ("int(".data ++ a ++ ",".data ++ b ++ ")".data) =
      ("integer", match coerceNum a, coerceNum b with
        | some min_val, some max_val =>
          [("min_val", min_val), ("max_val", max_val)]
        | _, _ => [])
    ∧ parse_string_schema "age:int(0,120)" =
      .ok (Py.dict
        [ ("type", Py.str "object"),
          ("properties", Py.dict [("age", Py.dict
            [ ("type", Py.str "integer"), ("minimum", Py.int 0),
              ("maximum", Py.int 120) ])]),
          ("required", Py.list [Py.str "age"]) ]) := by
  have hap : ∀ c ∈ a, isPySpace c = false ∧ ¬(c = ',') ∧ ¬(c = ')')
      ∧ ¬(c = '=') := by
    intro c hc
    have h := List.all_eq_true.mp ha c hc
    simp only [Bool.and_eq_true, Bool.not_eq_true'] at h
    exact ⟨h.1.1.1, by simpa using h.1.1.2, by simpa using h.1.2,
      by simpa using h.2⟩
  have hbp : ∀ c ∈ b, isPySpace c = false ∧ ¬(c = ',') ∧ ¬(c = ')')
      ∧ ¬(c = '=') := by
    intro c hc
    have h := List.all_eq_true.mp hb c hc
    simp only [Bool.and_eq_true, Bool.not_eq_true'] at h
    exact ⟨h.1.1.1, by simpa using h.1.1.2, by simpa using h.1.2,
      by simpa using h.2⟩
  refine ⟨?_, rfl⟩
  have hsh : "int(".data ++ a ++ ",".data ++ b ++ ")".data
      = "int".data ++ '(' :: ((a ++ ',' :: b) ++ [')']) := by
    simp only [List.append_assoc, List.cons_append]
    rfl
  rw [hsh]
  unfold parse_type_definition
  rw [matchTypeConstraint_shape (by decide) (by decide) (by simp)
    (by
      intro c hc
      rcases List.mem_append.mp hc with hc | hc
      · exact eq_false (hap c hc).2.2.1
      · rcases List.mem_cons.mp hc with hc | hc
        · subst hc
          decide
        · exact eq_false (hbp c hc).2.2.1)]
  dsimp only
  rw [splitOnChar_append b fun x hx => eq_false (hap x hx).2.1,
    splitOnChar_all_ne fun x hx => eq_false (hbp x hx).2.1]
  dsimp only [List.map]
  rw [pyStrip_all_nonspace fun c hc => (hap c hc).1,
    pyStrip_all_nonspace fun c hc => (hbp c hc).1]
  have hcond : (decide (([a, b] : List Str).length = 2)
      && ([a, b] : List Str).all fun part => !containsChar '=' part) = true := by
    simp [containsChar_all_ne fun x hx => eq_false (hap x hx).2.2.2,
      containsChar_all_ne fun x hx => eq_false (hbp x hx).2.2.2]
  rw [hcond, if_pos rfl]
  cases coerceNum a <;> cases coerceNum b <;> rfl

/-- Witness for C6 at `a = "0"`, `b = "120"`. -/
theorem C6_positional_constraints_min_max_witness :
    parse_type_definition
        ("int(".data ++ "0".data ++ ",".data ++ "120".data ++ ")".data) =
      ("integer", [("min_val", Py.int 0), ("max_val", Py.int 120)])
    ∧ parse_string_schema "age:int(0,120)" =
      .ok (Py.dict
        [ ("type", Py.str "object"),
          ("properties", Py.dict [("age", Py.dict
            [ ("type", Py.str "integer"), ("minimum", Py.int 0),
              ("maximum", Py.int 120) ])]),
          ("required", Py.list [Py.str "age"]) ]) := by
  constructor
  · exact (C6_positional_constraints_min_max "0".data "120".data (by decide)
      (by decide)).1
  · exact (C6_positional_constraints_min_max "0".data "120".data (by decide)
      (by decide)).2

/-! ## Claim C1 -/

theorem lookup_sfEnum_ne (field : SimpleField) (p : List (String × Py))
    (k : String) (h : k ≠ "enum") :
    lookupKey k (sfEnum field p) = lookupKey k p := by
  unfold sfEnum
  split
  · exact lookupKey_setKey_ne p k "enum" _ h
  · rfl

theorem lookup_sfFormat_ne (field : SimpleField) (p : List (String × Py))
    (k : String) (h : k ≠ "format") :
    lookupKey k (sfFormat field p) = lookupKey k p := by
  unfold sfFormat
  split
  · split
    · exact lookupKey_setKey_ne p k "format" _ h
    · split
      · exact lookupKey_setKey_ne p k "format" _ h
      · split
        · exact lookupKey_setKey_ne p k "format" _ h
        · split
          · exact lookupKey_setKey_ne p k "format" _ h
          · split
            · exact lookupKey_setKey_ne p k "format" _ h
            · rfl
  · rfl

theorem lookup_sfNumeric_ne (field : SimpleField) (p : List (String × Py))
    (k : String) (h1 : k ≠ "minimum") (h2 : k ≠ "maximum") :
    lookupKey k (sfNumeric field p) = lookupKey k p := by
  unfold sfNumeric
  split
  · split <;> split <;>
      simp only [lookupKey_setKey_ne _ k "maximum" _ h2,
        lookupKey_setKey_ne _ k "minimum" _ h1]
  · rfl

theorem lookup_sfString_ne (field : SimpleField) (p : List (String × Py))
    (k : String) (h1 : k ≠ "minLength") (h2 : k ≠ "maxLength") :
    lookupKey k (sfString field p) = lookupKey k p := by
  unfold sfString
  split
  · split <;> split <;>
      simp only [lookupKey_setKey_ne _ k "maxLength" _ h2,
        lookupKey_setKey_ne _ k "minLength" _ h1]
  · rfl

theorem lookup_sfEnum_enum (field : SimpleField) (p : List (String × Py))
    (h : field.choices.truthy = true) :
    lookupKey "enum" (sfEnum field p) = some field.choices := by
  unfold sfEnum
  rw [if_pos h, lookupKey_setKey_self]

theorem lookup_sfFormat_email (field : SimpleField) (p : List (String × Py))
    (h : field.format_hint = Py.str "email") :
    lookupKey "format" (sfFormat field p) = some (Py.str "email") := by
  unfold sfFormat
  rw [h]
  rw [if_pos (by rfl : Py.truthy (Py.str "email") = true),
    if_pos (by rfl : pyEqStr (Py.str "email") "email" = true),
    lookupKey_setKey_self]

theorem lookup_sfNumeric_minimum (field : SimpleField) (p : List (String × Py))
    (hf : (pyEqStr field.field_type "integer"
      || pyEqStr field.field_type "number") = true)
    (hm : field.min_val.isNone = false) :
    lookupKey "minimum" (sfNumeric field p) = some field.min_val := by
  have hc : (!field.min_val.isNone) = true := by rw [hm]; rfl
  unfold sfNumeric
  rw [if_pos hf, if_pos hc]
  split
  · rw [lookupKey_setKey_ne _ _ _ _ (by decide), lookupKey_setKey_self]
  · rw [lookupKey_setKey_self]

theorem lookup_sfString_minLength (field : SimpleField) (p : List (String × Py))
    (hf : pyEqStr field.field_type "string" = true)
    (hm : field.min_length.isNone = false) :
    lookupKey "minLength" (sfString field p) = some field.min_length := by
  have hc : (!field.min_length.isNone) = true := by rw [hm]; rfl
  unfold sfString
  rw [if_pos hf, if_pos hc]
  split
  · rw [lookupKey_setKey_ne _ _ _ _ (by decide), lookupKey_setKey_self]
  · rw [lookupKey_setKey_self]

/-- C1 is refuted as stated: on a FieldNode carrying both a union and
choices, the compiler emits the `anyOf` node and then still attaches `enum`
on top of it — the claim says the resulting node contains no `enum` key. -/
theorem C1_counterexample_enum_kept :
    simple_field_to_json_schema
      { field_type := Py.str "string",
        choices := Py.list [Py.str "a", Py.str "b"],
        union_types := Py.list [Py.str "string", Py.str "null"] } =
    .ok (Py.dict
      [ ("anyOf", Py.list [Py.dict [("type", Py.str "string")],
          Py.dict [("type", Py.str "null")]]),
        ("enum", Py.list [Py.str "a", Py.str "b"]) ]) := rfl

/-- C1 (amended): when `unionTypes` has at least 2 entries the field compiler
replaces the `type`-keyed dict wholesale by `{anyOf: [{type: t}, ...]}`
(mapping `"null"` to `{type: "null"}` and discarding `description`/`default`
set before it) — but the later source regions still run on top of the `anyOf`
dict, so choices, a format hint, and length/numeric constraints present on
the node are *not* discarded: they are attached as `enum`, `format`,
`minimum`/`maximum`, `minLength`/`maxLength` keys beside `anyOf`. -/
theorem C1_union_precedence_amended (f : SimpleField) (uts : List Py)
    (h1 : f.union_types = Py.list uts) (h2 : 2 ≤ uts.length) :
    ∃ p, simple_field_to_json_schema f = .ok (Py.dict p)
      ∧ lookupKey "anyOf" p = some (Py.list (uts.map fun union_type =>
          if pyEqStr union_type "null" then Py.dict [("type", Py.str "null")]
          else Py.dict [("type", union_type)]))
      ∧ lookupKey "type" p = Option.none
      ∧ (f.choices.truthy = true → lookupKey "enum" p = some f.choices)
      ∧ (f.format_hint = Py.str "email" →
          lookupKey "format" p = some (Py.str "email"))
      ∧ ((pyEqStr f.field_type "integer"
            || pyEqStr f.field_type "number") = true →
          f.min_val.isNone = false →
          lookupKey "minimum" p = some f.min_val)
      ∧ (pyEqStr f.field_type "string" = true →
          f.min_length.isNone = false →
          lookupKey "minLength" p = some f.min_length) := by
  have ht : f.union_types.truthy = true := by
    rw [h1]
    cases uts with
    | nil => simp at h2
    | cons x xs => rfl
  have hu : sfUnion f (sfBase f) = .ok [("anyOf", Py.list (uts.map
      fun union_type =>
        if pyEqStr union_type "null" then Py.dict [("type", Py.str "null")]
        else Py.dict [("type", union_type)]))] := by
    unfold sfUnion
    rw [if_pos ht, h1]
    dsimp only [pyLen, pyIter]
    rw [if_pos (by omega : 1 < uts.length)]
    rfl
  set base := [("anyOf", Py.list (uts.map fun union_type =>
    if pyEqStr union_type "null" then Py.dict [("type", Py.str "null")]
    else Py.dict [("type", union_type)]))] with hbase
  refine ⟨sfString f (sfNumeric f (sfFormat f (sfEnum f base))), ?_, ?_, ?_,
    ?_, ?_, ?_, ?_⟩
  · unfold simple_field_to_json_schema
    rw [hu]
    rfl
  · rw [lookup_sfString_ne _ _ _ (by decide) (by decide),
      lookup_sfNumeric_ne _ _ _ (by decide) (by decide),
      lookup_sfFormat_ne _ _ _ (by decide),
      lookup_sfEnum_ne _ _ _ (by decide)]
    rfl
  · rw [lookup_sfString_ne _ _ _ (by decide) (by decide),
      lookup_sfNumeric_ne _ _ _ (by decide) (by decide),
      lookup_sfFormat_ne _ _ _ (by decide),
      lookup_sfEnum_ne _ _ _ (by decide)]
    rfl
  · intro hch
    rw [lookup_sfString_ne _ _ _ (by decide) (by decide),
      lookup_sfNumeric_ne _ _ _ (by decide) (by decide),
      lookup_sfFormat_ne _ _ _ (by decide),
      lookup_sfEnum_enum _ _ hch]
  · intro hfh
    rw [lookup_sfString_ne _ _ _ (by decide) (by decide),
      lookup_sfNumeric_ne _ _ _ (by decide) (by decide),
      lookup_sfFormat_email _ _ hfh]
  · intro hft hmv
    rw [lookup_sfString_ne _ _ _ (by decide) (by decide),
      lookup_sfNumeric_minimum _ _ hft hmv]
  · intro hft hml
    rw [lookup_sfString_minLength _ _ hft hml]

/-- Witness for C1 (amended) on a concrete field carrying a union together
with choices, a format hint and a length bound. -/
theorem C1_union_precedence_amended_witness :
    ∃ p, simple_field_to_json_schema
        { field_type := Py.str "string",
          choices := Py.list [Py.str "a"],
          format_hint := Py.str "email",
          min_length := Py.int 1,
          union_types := Py.list [Py.str "string", Py.str "integer"] } =
      .ok (Py.dict p)
      ∧ lookupKey "anyOf" p = some (Py.list
          ([Py.str "string", Py.str "integer"].map fun union_type =>
            if pyEqStr union_type "null" then Py.dict [("type", Py.str "null")]
            else Py.dict [("type", union_type)]))
      ∧ lookupKey "type" p = Option.none
      ∧ ((Py.list [Py.str "a"]).truthy = true →
          lookupKey "enum" p = some (Py.list [Py.str "a"]))
      ∧ (Py.str "email" = Py.str "email" →
          lookupKey "format" p = some (Py.str "email"))
      ∧ ((pyEqStr (Py.str "string") "integer"
            || pyEqStr (Py.str "string") "number") = true →
          (Py.none : Py).isNone = false →
          lookupKey "minimum" p = some Py.none)
      ∧ (pyEqStr (Py.str "string") "string" = true →
          (Py.int 1 : Py).isNone = false →
          lookupKey "minLength" p = some (Py.int 1)) :=
  C1_union_precedence_amended
    { field_type := Py.str "string",
      choices := Py.list [Py.str "a"],
      format_hint := Py.str "email",
      min_length := Py.int 1,
      union_types := Py.list [Py.str "string", Py.str "integer"] }
    [Py.str "string", Py.str "integer"] rfl (by decide)

end StringSchema
